import Mathlib

/-!
Formal model of the update pipeline of the LeetCode/GitHub tracker backend
(`functions/update_data.py`): the metric deriver `compute_stats`, the fetch
orchestrator `_fetch_and_compute` / `update_all_students`, and the write
reconciler (`_chunks`, `_execute_payload`, notification reconciliation).

Python values occurring in provider payloads are shallowly embedded as the
JSON-like type `Val`; operations that can raise in Python are embedded in
`Except String`, with the exception message playing the role of the Python
exception rendered as `"<TypeName>: <text>"`.  Machine-independent integer
arithmetic (`int` in Python) is embedded as `Int`/`Nat`.
-/

namespace Tracker

/-- A loosely-typed Python/JSON value as it occurs in provider payloads:
`None`, `int`, `str`, `list`, and string-keyed `dict` (insertion ordered,
keys unique).  Booleans and floats do not occur in the fields the pipeline
reads and are not modelled. -/
inductive Val where
  | null : Val
  | int (n : Int) : Val
  | str (s : String) : Val
  | list (xs : List Val) : Val
  | dict (kvs : List (String × Val)) : Val
deriving Repr, BEq, Inhabited

/-- Decidable equality for `Val` (structural, mirroring Python `==` on
JSON-shaped data). -/
def Val.eqb : Val → Val → Bool
  | .null, .null => true
  | .int a, .int b => a == b
  | .str a, .str b => a == b
  | .list a, .list b => eqbList a b
  | .dict a, .dict b => eqbDict a b
  | _, _ => false
where
  eqbList : List Val → List Val → Bool
    | [], [] => true
    | x :: xs, y :: ys => eqb x y && eqbList xs ys
    | _, _ => false
  eqbDict : List (String × Val) → List (String × Val) → Bool
    | [], [] => true
    | (k, x) :: xs, (l, y) :: ys => k == l && eqb x y && eqbDict xs ys
    | _, _ => false

/-- Python `str.strip()`: drop whitespace from both ends (whitespace per
`Char.isWhitespace`, which covers the content occurring in payloads).
Implemented on the character list so that it reduces inside the kernel. -/
def pyStrip (s : String) : String :=
  String.mk (((s.toList.dropWhile Char.isWhitespace).reverse.dropWhile
    Char.isWhitespace).reverse)

/-- Non-empty and all ASCII digits, on a character list. -/
def digitChars (cs : List Char) : Bool := !cs.isEmpty && cs.all Char.isDigit

/-- Numeric value of a digit character list. -/
def charsToNat (cs : List Char) : Nat :=
  cs.foldl (fun a c => a * 10 + (c.toNat - 48)) 0

/-- Python `s.split(sep)` for a one-character separator (the only kind the
pipeline uses), on character lists. -/
def splitChars (sep : Char) : List Char → List (List Char)
  | [] => [[]]
  | c :: rest =>
    let r := splitChars sep rest
    if c = sep then [] :: r
    else
      match r with
      | [] => [[c]]
      | g :: gs => (c :: g) :: gs

/-- Python `s.split(sep)` for a one-character separator, on strings. -/
def splitOnChar (sep : Char) (s : String) : List String :=
  (splitChars sep s.toList).map String.mk

/-- Python truthiness: `None`, `0`, `""`, `[]`, `{}` are falsy. -/
def pyTruthy : Val → Bool
  | .null => false
  | .int n => n != 0
  | .str s => s ≠ ""
  | .list xs => !xs.isEmpty
  | .dict kvs => !kvs.isEmpty

/-- Python `a or b` (value-returning). -/
def pyOr (a b : Val) : Val := if pyTruthy a then a else b

/-- Python `v is None` as a Boolean. -/
def isNullVal : Val → Bool
  | Val.null => true
  | _ => false

/-- First-match association lookup, the model of Python `dict` access
(keys are unique in real payload dicts). -/
def assocFind (kvs : List (String × Val)) (k : String) : Option Val :=
  match kvs.find? (fun kv => kv.1 == k) with
  | Option.none => Option.none
  | some kv => some kv.2

/-- Python `d.get(k)`: `None` when the key is absent; raises
`AttributeError` when the receiver is not a dict. -/
def pyGet (v : Val) (k : String) : Except String Val :=
  match v with
  | .dict kvs => Except.ok ((assocFind kvs k).getD Val.null)
  | _ => Except.error "AttributeError: object has no attribute get"

/-- Python `d.get(k, default)`: the default is used only when the key is
absent (a present falsy value is returned as-is). -/
def pyGetD (v : Val) (k : String) (dflt : Val) : Except String Val :=
  match v with
  | .dict kvs => Except.ok ((assocFind kvs k).getD dflt)
  | _ => Except.error "AttributeError: object has no attribute get"

/-- Python `len(v)`: defined for `str`, `list`, `dict`; raises `TypeError`
otherwise. -/
def pyLen (v : Val) : Except String Nat :=
  match v with
  | .str s => Except.ok s.length
  | .list xs => Except.ok xs.length
  | .dict kvs => Except.ok kvs.length
  | _ => Except.error "TypeError: object has no len"

/-- Python `str(v)` restricted to the shapes the pipeline feeds it: the
`repr` of a list/dict is summarized by a bracketed placeholder (only its
non-emptiness and non-digit-ness matter downstream). -/
def pyStr : Val → String
  | .null => "None"
  | .int n => toString n
  | .str s => s
  | .list _ => "[...]"
  | .dict _ => "\x7b...\x7d"

/-- Python `str.isdigit()` for ASCII content: non-empty and all digits. -/
def isDigitStr (s : String) : Bool := digitChars s.toList

/-- Numeric value of a digit-only string (used where the source does
`int(s)` after an `isdigit` check). -/
def digitsToNat (s : String) : Nat := charsToNat s.toList

/-- Python `int(s)` on a stripped string: optional sign then digits;
anything else raises `ValueError`. -/
def intOfString (s : String) : Except String Int :=
  match (pyStrip s).toList with
  | '-' :: rest =>
    if digitChars rest then Except.ok (-(charsToNat rest : Int))
    else Except.error "ValueError: invalid literal for int"
  | '+' :: rest =>
    if digitChars rest then Except.ok (charsToNat rest)
    else Except.error "ValueError: invalid literal for int"
  | cs =>
    if digitChars cs then Except.ok (charsToNat cs)
    else Except.error "ValueError: invalid literal for int"

/-- Python `int(v)`: ints pass through, strings are parsed, everything
else raises. -/
def pyInt (v : Val) : Except String Int :=
  match v with
  | .int n => Except.ok n
  | .str s => intOfString s
  | _ => Except.error "TypeError: int argument must be a string or a number"

/-- `_safe_int` from `update_data.py`: `int(v) if v is not None else None`,
with every exception degraded to `None`. -/
def safeInt (v : Val) : Option Int :=
  match v with
  | .null => Option.none
  | v => (pyInt v).toOption

/-- `_join_list` from `update_data.py`: `None` for an empty list, else the
comma-join. -/
def joinList (vals : List String) : Option String :=
  if vals.isEmpty then Option.none else some (String.intercalate "," vals)

/-! ## Calendar arithmetic

Civil-calendar conversions used to model `datetime.fromtimestamp(·, utc)`,
`date.isoformat()` / `strftime('%Y-%m-%d')`, and date subtraction.  Dates
are (year, month, day) triples; `daysFromCivil` is the day ordinal relative
to the Unix epoch (1970-01-01 = 0). -/

/-- Gregorian leap-year test. -/
def isLeap (y : Int) : Bool := (y % 4 == 0 && y % 100 != 0) || y % 400 == 0

/-- Days in a month of the proleptic Gregorian calendar. -/
def daysInMonth (y : Int) (m : Nat) : Nat :=
  if m == 2 then (if isLeap y then 29 else 28)
  else if m == 4 || m == 6 || m == 9 || m == 11 then 30
  else 31

/-- Civil date from a Unix-epoch day ordinal (standard era-based
algorithm; divisors are positive so `Int` division is floor division,
as in Python). -/
def civilFromDays (z : Int) : Int × Nat × Nat :=
  let z' := z + 719468
  let era : Int := z' / 146097
  let doe : Nat := (z' - era * 146097).toNat
  let yoe : Nat := (doe - doe / 1460 + doe / 36524 - doe / 146096) / 365
  let y : Int := (yoe : Int) + era * 400
  let doy : Nat := doe - (365 * yoe + yoe / 4 - yoe / 100)
  let mp : Nat := (5 * doy + 2) / 153
  let d : Nat := doy - (153 * mp + 2) / 5 + 1
  let m : Nat := if mp < 10 then mp + 3 else mp - 9
  (if m ≤ 2 then y + 1 else y, m, d)

/-- Unix-epoch day ordinal of a civil date (inverse of `civilFromDays`). -/
def daysFromCivil (y : Int) (m d : Nat) : Int :=
  let y' : Int := if m ≤ 2 then y - 1 else y
  let era : Int := (if 0 ≤ y' then y' else y' - 399) / 400
  let yoe : Nat := (y' - era * 400).toNat
  let mp : Nat := if m > 2 then m - 3 else m + 9
  let doy : Nat := (153 * mp + 2) / 5 + d - 1
  let doe : Nat := yoe * 365 + yoe / 4 - yoe / 100 + doy
  era * 146097 + (doe : Int) - 719468

/-- Smallest epoch-second accepted by `datetime.fromtimestamp` (the
instant 0001-01-01T00:00:00Z). -/
def minEpochSecond : Int := -62135596800

/-- Largest epoch-second accepted by `datetime.fromtimestamp` (the
instant 9999-12-31T23:59:59Z). -/
def maxEpochSecond : Int := 253402300799

/-- `datetime.fromtimestamp(ts, tz=timezone.utc).date()`: raises
(`ValueError`/`OverflowError`) outside the representable year range
1–9999, else the UTC civil date of the instant. -/
def fromtimestampDate (ts : Int) : Except String (Int × Nat × Nat) :=
  if ts < minEpochSecond || ts > maxEpochSecond then
    Except.error "ValueError: timestamp out of range"
  else Except.ok (civilFromDays (ts / 86400))

/-- Zero-pad a numeral to two digits. -/
def pad2 (n : Nat) : String :=
  if n < 10 then "0" ++ toString n else toString n

/-- Zero-pad a numeral to four digits. -/
def pad4 (n : Nat) : String :=
  if n < 10 then "000" ++ toString n
  else if n < 100 then "00" ++ toString n
  else if n < 1000 then "0" ++ toString n
  else toString n

/-- `strftime('%Y-%m-%d')` / `date.isoformat()` for a civil date with year
in 1–9999. -/
def fmtYMD (ymd : Int × Nat × Nat) : String :=
  pad4 ymd.1.toNat ++ "-" ++ pad2 ymd.2.1 ++ "-" ++ pad2 ymd.2.2

/-- Epoch day ordinal of the UTC date of an epoch-second instant
(divisor positive, floor division as in Python). -/
def epochDay (ts : Int) : Int := ts / 86400

/-! ## Date normalization (`_to_date_only`, `_to_date_from_ts`, strptime) -/

/-- The `s.replace('Z', '+00:00')` preprocessing of `_to_date_only`'s
fall-back branch, on character lists. -/
def replaceZchars : List Char → List Char
  | [] => []
  | 'Z' :: rest => '+' :: '0' :: '0' :: ':' :: '0' :: '0' :: replaceZchars rest
  | c :: rest => c :: replaceZchars rest

/-- Python `s.replace('Z', '+00:00')`. -/
def replaceZ (s : String) : String := String.mk (replaceZchars s.toList)

/-- Modelled from the spec: the fall-back branch of `_to_date_only` calls
the library function `datetime.fromisoformat` ("best-effort full ISO
parse"), which is not code of this repository.  Strings reaching the
branch are non-empty, not pure digits, and not `YYYY-MM-DD`-prefixed; of
those, the `YYYY-MM` shape is the one the providers produce, and is
modelled; every other shape is treated as a parse failure. -/
def isoParseDate (s : String) : Option String :=
  match splitOnChar '-' s with
  | [ys, ms] =>
    if isDigitStr ys ∧ ys.length = 4 ∧ isDigitStr ms ∧ ms.length = 2 ∧
        1 ≤ digitsToNat ms ∧ digitsToNat ms ≤ 12 ∧ 1 ≤ digitsToNat ys then
      some (ys ++ "-" ++ ms ++ "-01")
    else Option.none
  | _ => Option.none

/-- `_to_date_only` from `compute_stats` (lines 63–84): `None` for `None`
or blank input; a pure-digit string is treated as Unix epoch seconds (with
any `fromtimestamp` failure caught, yielding `None`); a `YYYY-MM-DD`-shaped
prefix (5th and 8th characters `-`, length ≥ 10) is taken verbatim; else a
best-effort ISO parse.  Everything is wrapped in the source's outer
`try/except` returning `None`. -/
def toDateOnly (val : Val) : Option String :=
  match val with
  | Val.null => Option.none
  | _ =>
    let s := pyStrip (pyStr val)
    if s = "" then Option.none
    else if isDigitStr s then
      match fromtimestampDate (digitsToNat s) with
      | Except.ok ymd => some (fmtYMD ymd)
      | Except.error _ => Option.none
    else if s.length ≥ 10 ∧ s.toList.get? 4 = some '-' ∧ s.toList.get? 7 = some '-' then
      some (s.take 10)
    else
      isoParseDate (replaceZ s)

/-- `_to_date_from_ts` from `compute_stats` (lines 100–112): `None` unless
the stripped string form is pure digits; digits are Unix epoch seconds,
with `fromtimestamp` failures caught to `None`. -/
def toDateFromTs (ts : Val) : Option String :=
  match ts with
  | Val.null => Option.none
  | _ =>
    let s := pyStrip (pyStr ts)
    if s = "" then Option.none
    else if isDigitStr s then
      match fromtimestampDate (digitsToNat s) with
      | Except.ok ymd => some (fmtYMD ymd)
      | Except.error _ => Option.none
    else Option.none

/-- `datetime.strptime(s, "%Y-%m-%d").date()` as used by the staleness
check: `%Y` matches exactly four digits, `%m` and `%d` one or two digits
within range, the whole string must be consumed, and the resulting civil
date must be valid (year ≥ 1, day within the month); failure raises
`ValueError`, modelled as `Option.none`. -/
def parseYMD (s : String) : Option (Int × Nat × Nat) :=
  match splitOnChar '-' s with
  | [ys, ms, ds] =>
    if isDigitStr ys ∧ ys.length = 4 ∧
        isDigitStr ms ∧ 1 ≤ ms.length ∧ ms.length ≤ 2 ∧
        1 ≤ digitsToNat ms ∧ digitsToNat ms ≤ 12 ∧
        isDigitStr ds ∧ 1 ≤ ds.length ∧ ds.length ≤ 2 ∧
        1 ≤ digitsToNat ds ∧ 1 ≤ digitsToNat ys ∧
        digitsToNat ds ≤ daysInMonth (digitsToNat ys) (digitsToNat ms) then
      some ((digitsToNat ys : Int), digitsToNat ms, digitsToNat ds)
    else Option.none
  | _ => Option.none

/-- Epoch day ordinal of a parsed `YYYY-MM-DD` string, the quantity the
staleness check subtracts from today. -/
def parseYMDord (s : String) : Option Int :=
  (parseYMD s).map (fun ymd => daysFromCivil ymd.1 ymd.2.1 ymd.2.2)

/-! ## Streak computation (`_calc_streaks`, lines 136–177) -/

/-- The day-set construction of `_calc_streaks` (lines 141–152): skip
`None` counts, skip keys whose stripped string form is not pure digits,
skip non-positive timestamps, convert the rest to UTC calendar days; an
out-of-range timestamp makes `fromtimestamp` raise, which aborts the whole
computation (the source's surrounding `try`).  The Python `set` is modelled
as a list possibly holding duplicates; only membership, minimum and maximum
are consumed downstream. -/
def streakDayStep (acc : List Int) (kv : String × Val) : Except String (List Int) :=
  if isNullVal kv.2 then Except.ok acc
  else
    let s := pyStrip kv.1
    if isDigitStr s then
      let ts : Nat := digitsToNat s
      if ts = 0 then Except.ok acc
      else if (ts : Int) > maxEpochSecond then
        Except.error "ValueError: timestamp out of range"
      else Except.ok (acc ++ [epochDay (ts : Int)])
    else Except.ok acc

/-- The day set built by the loop, as a fold of `streakDayStep`. -/
def streakDaySet (kvs : List (String × Val)) : Except String (List Int) :=
  kvs.foldlM streakDayStep []

/-- Day ordinals `start, start+1, …, start+n-1`, the iteration space of the
forward scan from the earliest to the latest activity day. -/
def rangeI (start : Int) (n : Nat) : List Int :=
  (List.range n).map (fun (i : Nat) => start + (i : Int))

/-- One step of the forward scan (lines 161–167): on a member day the
running streak grows and the maximum is refreshed; on a gap the running
streak resets. -/
def scanStep (ds : List Int) (st : Nat × Nat) (d : Int) : Nat × Nat :=
  if d ∈ ds then (Nat.max st.1 (st.2 + 1), st.2 + 1) else (st.1, 0)

/-- The forward scan of `_calc_streaks`: fold `scanStep` over the days from
`start` for `n` days, starting from `(max_streak, cur_streak) = (0, 0)`. -/
def forwardScan (ds : List Int) (start : Int) (n : Nat) : Nat × Nat :=
  (rangeI start n).foldl (scanStep ds) (0, 0)

/-- The backward walk of `_calc_streaks` (lines 169–174): count consecutive
days present in the set going down from `d`.  The fuel argument bounds the
loop; the walk visits pairwise-distinct members of `ds`, so any fuel
exceeding the number of distinct members reproduces the Python loop
exactly. -/
def backCount (ds : List Int) : Int → Nat → Nat
  | _, 0 => 0
  | d, Nat.succ fuel => if d ∈ ds then backCount ds (d - 1) fuel + 1 else 0

/-- `_calc_streaks` (lines 136–177), parametrized by today's UTC epoch-day
ordinal: non-dict or empty input yields `(None, None)`; an exception while
building the day set yields `(None, None)`; an empty day set yields
`(0, 0)`; otherwise the forward scan gives the longest streak and the
backward walk from today the current streak. -/
def calcStreaks (today : Int) (subCal : Val) : Option Nat × Option Nat :=
  match subCal with
  | Val.dict kvs =>
    if kvs.isEmpty then (Option.none, Option.none)
    else
      match streakDaySet kvs with
      | Except.error _ => (Option.none, Option.none)
      | Except.ok ds =>
        match ds with
        | [] => (some 0, some 0)
        | h :: t =>
          let mn := t.foldl min h
          let mx := t.foldl max h
          let maxStreak := (forwardScan ds mn ((mx - mn).toNat + 1)).1
          let cur := backCount ds today (ds.dedup.length + 1)
          (some cur, some maxStreak)
  | _ => (Option.none, Option.none)

/-! ## Further raising Python primitives used by `compute_stats` -/

/-- Python `v[0]`: head of a list, first character of a string, key lookup
for a dict (string-keyed dicts have no key `0`), `TypeError` otherwise. -/
def pyIndexZero (v : Val) : Except String Val :=
  match v with
  | Val.list (x :: _) => Except.ok x
  | Val.list [] => Except.error "IndexError: list index out of range"
  | Val.str s =>
    match s.toList with
    | c :: _ => Except.ok (Val.str (String.mk [c]))
    | [] => Except.error "IndexError: string index out of range"
  | Val.dict _ => Except.error "KeyError: 0"
  | _ => Except.error "TypeError: object is not subscriptable"

/-- Python iteration `for x in v`: the elements of a list, the characters
of a string, the keys of a dict; `TypeError` otherwise. -/
def pyIterate (v : Val) : Except String (List Val) :=
  match v with
  | Val.list xs => Except.ok xs
  | Val.str s => Except.ok (s.toList.map (fun c => Val.str (String.mk [c])))
  | Val.dict kvs => Except.ok (kvs.map (fun kv => Val.str kv.1))
  | _ => Except.error "TypeError: object is not iterable"

/-- Python `v.lower()`: defined on strings only. -/
def pyLower (v : Val) : Except String String :=
  match v with
  | Val.str s => Except.ok (String.mk (s.toList.map Char.toLower))
  | _ => Except.error "AttributeError: object has no attribute lower"

/-- The accepted-submission loop of `compute_stats` (lines 122–126): scan
the recent submissions from the front, stop at the first whose
`statusDisplay` lowercases to `"accepted"`, and normalize its timestamp. -/
def findAccepted : List Val → Except String (Option String)
  | [] => Except.ok Option.none
  | sub :: rest => do
    let sd ← pyGet sub "statusDisplay"
    let low ← pyLower (pyOr sd (Val.str ""))
    if low = "accepted" then do
      let ats ← pyGet sub "timestamp"
      Except.ok (toDateFromTs ats)
    else findAccepted rest

/-- The language list comprehension of `compute_stats` (line 130): keep the
string form of each truthy `languageName`. -/
def langNames : List Val → Except String (List String)
  | [] => Except.ok []
  | x :: rest => do
    let ln ← pyGet x "languageName"
    let tail ← langNames rest
    if pyTruthy ln then Except.ok (pyStr ln :: tail) else Except.ok tail

/-! ## History normalization (`compute_stats`, lines 191–221) -/

/-- Python dict assignment `m[k] = v`: overwrite in place when the key is
present, else append. -/
def assocPut (m : List (String × Int)) (k : String) (v : Int) : List (String × Int) :=
  if m.any (fun kv => kv.1 == k) then
    m.map (fun kv => if kv.1 == k then (k, v) else kv)
  else m ++ [(k, v)]

/-- The per-key date of the LeetCode history normalization (lines
200–203): divide by 1000 when the magnitude exceeds ten digits
(milliseconds guard), then take the UTC date of the epoch-second
timestamp; `fromtimestamp` may raise. -/
def lcHistTsDate (ts : Nat) : Except String String := do
  let ts2 := if ts > 10 ^ 10 then ts / 1000 else ts
  let ymd ← fromtimestampDate (ts2 : Int)
  Except.ok (fmtYMD ymd)

/-- The loop body of the LeetCode history normalization (lines 197–204):
digit keys become canonical dates mapped to `int(v or 0)`; other keys are
skipped; any raise aborts the whole map. -/
def lcHistStep (acc : List (String × Int)) (kv : String × Val) :
    Except String (List (String × Int)) :=
  let s := pyStrip kv.1
  if isDigitStr s then do
    let d ← lcHistTsDate (digitsToNat s)
    let c ← pyInt (pyOr kv.2 (Val.int 0))
    Except.ok (assocPut acc d c)
  else Except.ok acc

/-- The history map built by the loop, as a fold of `lcHistStep`. -/
def lcHistEntries (kvs : List (String × Val)) : Except String (List (String × Int)) :=
  kvs.foldlM lcHistStep []

/-- `lc_history` (lines 193–206): `None` unless the raw calendar is a
non-empty dict; a raise inside the loop degrades to `None` (the source's
`except`); otherwise the normalized map (possibly empty). -/
def lcHistoryOf (subCalRaw : Val) : Option (List (String × Int)) :=
  match subCalRaw with
  | Val.dict kvs =>
    if kvs.isEmpty then Option.none
    else
      match lcHistEntries kvs with
      | Except.ok m => some m
      | Except.error _ => Option.none
  | _ => Option.none

/-- `gh_history` (lines 209–221): walk `weeks → contributionDays`, keeping
`str(date) → int(count or 0)` for truthy dates; any raise degrades to
`None`; an empty result map also becomes `None`. -/
def ghHistoryOf (git_contri : Option Val) : Option (List (String × Int)) :=
  let body : Except String (List (String × Int)) :=
    match git_contri with
    | Option.none => Except.ok []
    | some gc =>
      if pyTruthy gc then do
        let wk ← pyGet gc "weeks"
        match wk with
        | Val.list ws =>
          ws.foldlM (fun acc w => do
            let cd ← pyGet w "contributionDays"
            let items ← pyIterate (pyOr cd (Val.list []))
            items.foldlM (fun acc2 d => do
              let day ← pyGet d "date"
              let cnt ← pyGet d "contributionCount"
              if pyTruthy day then do
                let c ← pyInt (pyOr cnt (Val.int 0))
                Except.ok (assocPut acc2 (pyStr day) c)
              else Except.ok acc2) acc) []
        | _ => Except.ok []
      else Except.ok []
  match body with
  | Except.error _ => Option.none
  | Except.ok m => if m.isEmpty then Option.none else some m

/-- `json.dumps(m, separators=(",", ":"))` for a flat string→int map; the
keys produced by the pipeline are date-like strings needing no escaping. -/
def jsonDumps (m : List (String × Int)) : String :=
  "\x7b" ++
    String.intercalate ","
      (m.map (fun kv => "\"" ++ kv.1 ++ "\":" ++ toString kv.2)) ++
  "\x7d"

/-- One `"key":int` pair of a flat JSON object. -/
def parseJsonPair (t : String) : Option (String × Val) :=
  match splitOnChar ':' t with
  | [ks, vs] =>
    match (pyStrip ks).toList with
    | '"' :: rest =>
      if rest ≠ [] ∧ rest.getLast? = some '"' then
        match intOfString vs with
        | Except.ok n => some (String.mk rest.dropLast, Val.int n)
        | Except.error _ => Option.none
      else Option.none
    | _ => Option.none
  | _ => Option.none

/-- Modelled from the spec: `json.loads` is library code outside this
repository; the calendar endpoint wraps the submission calendar as a flat
JSON object of digit-string keys to integer counts, and that flat shape is
modelled here; any other input is a parse failure (`JSONDecodeError`). -/
def jsonLoadsFlat (s : String) : Except String Val :=
  match (pyStrip s).toList with
  | '\x7b' :: rest =>
    if rest.getLast? = some '\x7d' then
      let inner := rest.dropLast
      if inner.isEmpty then Except.ok (Val.dict [])
      else
        match (splitChars ',' inner).mapM (fun g => parseJsonPair (String.mk g)) with
        | some kvs => Except.ok (Val.dict kvs)
        | Option.none => Except.error "JSONDecodeError: invalid"
    else Except.error "JSONDecodeError: invalid"
  | _ => Except.error "JSONDecodeError: invalid"

/-! ## The derived metrics record and `compute_stats` -/

/-- The dictionary returned by `compute_stats` (lines 223–245), one field
per key.  `git_original_repo` and `git_authored_repo` are `len(...)` of
dicts and can only hold non-negative integers, never `None`; every other
integer or string field is nullable. -/
structure StatsRec where
  git_followers : Option Int
  git_following : Option Int
  git_public_repo : Option Int
  git_original_repo : Nat
  git_authored_repo : Nat
  last_commit_date : Option String
  git_badges : Option String
  lc_total_solved : Option Int
  lc_easy : Option Int
  lc_medium : Option Int
  lc_hard : Option Int
  lc_ranking : Option Int
  lc_lastsubmission : Option String
  lc_lastacceptedsubmission : Option String
  lc_cur_streak : Option Nat
  lc_max_streak : Option Nat
  lc_badges : Option String
  lc_language : Option String
  lc_submission_history : Option String
  gh_contribution_history : Option String
deriving Repr, DecidableEq

/-- `compute_stats` (lines 41–245), parametrized by today's UTC epoch-day
ordinal (consumed by the streak computation).  Operations the source does
not guard can raise, surfacing as `Except.error` with the Python exception
rendered as a string; guarded regions degrade to `None` values exactly
where the source catches. -/
def computeStats (today : Int) (git_json lc_prof lc_lang lc_badges : Val)
    (git_contri lc_calendar : Option Val) : Except String StatsRec := do
  let followers := safeInt (← pyGet git_json "followers")
  let following := safeInt (← pyGet git_json "following")
  let public_repo := safeInt (← pyGet git_json "public_repo_count")
  let original_repos := pyOr (← pyGet git_json "original_repos") (Val.dict [])
  let authored_forks := pyOr (← pyGet git_json "authored_forks") (Val.dict [])
  let orig_count ← pyLen original_repos
  let authored_count ← pyLen authored_forks
  let overall := pyOr (← pyGet git_json "overall_last_commit") (Val.dict [])
  let raw_last_commit ← pyGet overall "date"
  let last_commit_date := toDateOnly raw_last_commit
  let badges_map := pyOr (← pyGet git_json "badges") (Val.dict [])
  let git_badges_list : List String :=
    match badges_map with
    | Val.dict kvs => kvs.map (fun kv => kv.1)
    | _ => []
  let totalSolved := safeInt (← pyGet lc_prof "totalSolved")
  let easy := safeInt (← pyGet lc_prof "easySolved")
  let medium := safeInt (← pyGet lc_prof "mediumSolved")
  let hard := safeInt (← pyGet lc_prof "hardSolved")
  let ranking := safeInt (← pyGet lc_prof "ranking")
  let recent := pyOr (← pyGet lc_prof "recentSubmissions") (Val.list [])
  let subPair ←
    if pyTruthy recent then do
      let first ← pyIndexZero recent
      let ts ← pyGet first "timestamp"
      let elems ← pyIterate recent
      let la ← findAccepted elems
      Except.ok (toDateFromTs ts, la)
    else Except.ok ((Option.none : Option String), (Option.none : Option String))
  let lang_counts ← do
    let mu ← pyGetD lc_lang "matchedUser" (Val.dict [])
    pyGetD mu "languageProblemCount" (Val.list [])
  let lang_items ← pyIterate lang_counts
  let languages ← langNames lang_items
  let lc_badges_count := safeInt (← pyGet lc_badges "badgesCount")
  let sub_cal_read := pyOr (← pyGet lc_prof "submissionCalendar") (Val.dict [])
  let sub_cal_raw ←
    match lc_calendar with
    | Option.none => Except.ok sub_cal_read
    | some cal =>
      if pyTruthy cal then do
        let sc ← pyGet cal "submissionCalendar"
        match sc with
        | Val.str str' =>
          match jsonLoadsFlat str' with
          | Except.ok parsed => Except.ok (pyOr parsed sub_cal_read)
          | Except.error _ => Except.ok sub_cal_read
        | _ => Except.ok sub_cal_read
      else Except.ok sub_cal_read
  let streaks := calcStreaks today (pyOr sub_cal_raw (Val.dict []))
  let lc_history := lcHistoryOf sub_cal_raw
  let gh_history := ghHistoryOf git_contri
  Except.ok
    { git_followers := followers
      git_following := following
      git_public_repo := public_repo
      git_original_repo := orig_count
      git_authored_repo := authored_count
      last_commit_date := last_commit_date
      git_badges := joinList git_badges_list
      lc_total_solved := totalSolved
      lc_easy := easy
      lc_medium := medium
      lc_hard := hard
      lc_ranking := ranking
      lc_lastsubmission := subPair.1
      lc_lastacceptedsubmission := subPair.2
      lc_cur_streak := streaks.1
      lc_max_streak := streaks.2
      lc_badges := lc_badges_count.map toString
      lc_language := joinList languages
      lc_submission_history := lc_history.map jsonDumps
      gh_contribution_history := gh_history.map jsonDumps }

/-! ## Fetch orchestrator (`update_all_students`, lines 279–359) -/

/-- The six provider-gateway calls, abstracted: each takes a handle and
returns a payload or raises (`Except.error` carries the exception rendered
as `"<TypeName>: <text>"`). -/
structure Providers where
  get_github_summary : String → Except String Val
  get_github_contributions : String → Except String Val
  get_leetcode_profile : String → Except String Val
  get_leetcode_language_stats : String → Except String Val
  get_leetcode_badges : String → Except String Val
  get_leetcode_calendar : String → Except String Val

/-- A prepared work item (lines 279–287): roll number, stripped handles,
stripped display name. -/
structure WorkItem where
  roll : Int
  gh : String
  lc : String
  name : String
deriving Repr, DecidableEq

/-- One roster row as selected from the source table (lines 268–276);
text columns are nullable. -/
structure RosterRow where
  roll_number : Int
  github_username : Option String
  leetcode_username : Option String
  name : Option String
deriving Repr, DecidableEq

/-- Work preparation (lines 279–287): strip both handles and the name,
skip rows where both handles are empty. -/
def prepareWork (rows : List RosterRow) : List WorkItem :=
  rows.filterMap (fun r =>
    let gh := pyStrip (r.github_username.getD "")
    let lc := pyStrip (r.leetcode_username.getD "")
    let nm := pyStrip (r.name.getD "")
    if gh = "" ∧ lc = "" then Option.none
    else some ⟨r.roll_number, gh, lc, nm⟩)

/-- The `try` body of `_fetch_and_compute` (lines 311–321).  In the source,
`git_contri` is assigned only under `if gh:` and `lc_calendar` only under
`if lc:`, yet both are read unconditionally as arguments of the
`compute_stats` call; reading an unassigned local raises
`UnboundLocalError`.  Bound-ness is modelled by `Option`, and Python
evaluates call arguments left to right, so an unbound `git_contri` is
reported before an unbound `lc_calendar`. -/
def fetchBody (today : Int) (P : Providers) (gh lc : String) : Except String StatsRec := do
  let ghPart ←
    if gh ≠ "" then do
      let g ← P.get_github_summary gh
      let c ← P.get_github_contributions gh
      Except.ok (g, some c)
    else Except.ok ((Val.dict []), (Option.none : Option Val))
  let lcPart ←
    if lc ≠ "" then do
      let p ← P.get_leetcode_profile lc
      let l ← P.get_leetcode_language_stats lc
      let b ← P.get_leetcode_badges lc
      let cal ← P.get_leetcode_calendar lc
      Except.ok (p, l, b, some cal)
    else Except.ok ((Val.dict []), (Val.dict []), (Val.dict []), (Option.none : Option Val))
  match ghPart.2 with
  | Option.none =>
    Except.error "UnboundLocalError: cannot access local variable 'git_contri' where it is not associated with a value"
  | some git_contri =>
    match lcPart.2.2.2 with
    | Option.none =>
      Except.error "UnboundLocalError: cannot access local variable 'lc_calendar' where it is not associated with a value"
    | some lc_calendar =>
      computeStats today ghPart.1 lcPart.1 lcPart.2.1 lcPart.2.2.1 (some git_contri) (some lc_calendar)

/-- `_fetch_and_compute` (lines 302–323): success yields
`(roll, stats, name, None)`; any exception in the body is caught and
yields `(roll, \x7b\x7d, name, "roll=<roll>: <TypeName>: <text>")` — the
empty-dict stats of the error branch is modelled as `none` (the caller
discards it). -/
def fetchAndCompute (today : Int) (P : Providers) (item : WorkItem) :
    Int × Option StatsRec × String × Option String :=
  match fetchBody today P item.gh item.lc with
  | Except.ok stats => (item.roll, some stats, item.name, Option.none)
  | Except.error e =>
    (item.roll, Option.none, item.name, some ("roll=" ++ toString item.roll ++ ": " ++ e))

/-- The fixed notification reason string (lines 339 and 407). -/
def staleReason : String := "No LC submission in last 3 days"

/-- The staleness decision of `update_all_students` (lines 338–350), on
the `lc_lastsubmission` value of a successful result: flag when the value
is `None` or empty, when `strptime` fails, or when the parsed date is more
than 3 days before today (UTC). -/
def notifFlag (today : Int) (lc_last : Option String) : Bool :=
  match lc_last with
  | Option.none => true
  | some s =>
    if s = "" then true
    else
      match parseYMDord s with
      | Option.none => true
      | some d => decide (today - d > 3)

/-- A queued notification upsert (lines 352–357). -/
structure NotifAdd where
  table_name : String
  rollnumber : Int
  name : String
  reason : String
deriving Repr, DecidableEq

/-- The in-memory state accumulated by the completion loop (lines
325–359): successful results, error strings, queued notification upserts,
and rolls queued for notification removal. -/
structure FetchAgg where
  results : List (Int × StatsRec × String)
  errors : List String
  toAdd : List NotifAdd
  toRemove : List Int
deriving Repr, DecidableEq

/-- The empty accumulation state. -/
def emptyAgg : FetchAgg := ⟨[], [], [], []⟩

/-- The body of the completion loop (lines 331–359): an errored future
contributes its error string; a successful one contributes its result and
either a queued notification upsert (when flagged stale) or a queued
removal. -/
def processCompletion (today : Int) (source_table : String) (acc : FetchAgg)
    (c : Int × Option StatsRec × String × Option String) : FetchAgg :=
  match c with
  | (roll, stats?, name, err?) =>
    match err? with
    | some e => { acc with errors := acc.errors ++ [e] }
    | Option.none =>
      match stats? with
      | Option.none => acc
      | some stats =>
        let flag := notifFlag today stats.lc_lastsubmission
        { acc with
          results := acc.results ++ [(roll, stats, name)]
          toAdd :=
            if flag then acc.toAdd ++ [⟨source_table, roll, name, staleReason⟩]
            else acc.toAdd
          toRemove :=
            if flag then acc.toRemove
            else acc.toRemove ++ [roll] }

/-- The fetch stage (lines 329–359): every work item is fetched and folded
through the completion loop.  `as_completed` yields futures in an
unspecified order; submission order is one admissible order, and every
property checked below is insensitive to the interleaving. -/
def runFetch (today : Int) (P : Providers) (source_table : String)
    (work : List WorkItem) : FetchAgg :=
  work.foldl
    (fun acc item => processCompletion today source_table acc (fetchAndCompute today P item))
    emptyAgg

/-! ## Write reconciler (`_chunks` and `_execute_payload`, lines 362–403) -/

/-- The outcome of one `conn.execute` of a micro-batch upsert:
success, a transient storage error (`OperationalError`/`InterfaceError`),
or any other exception. -/
inductive WriteOutcome where
  | ok : WriteOutcome
  | transient (msg : String) : WriteOutcome
  | fatal (msg : String) : WriteOutcome
deriving Repr, DecidableEq

/-- The observable effect of one `_execute_payload` call: rows added to
`updated`, error strings appended, back-off sleeps performed (in
time-units of `base_sleep`), and number of `conn.execute` calls made. -/
structure ExecResult where
  updated : Nat
  errors : List String
  sleeps : List ℚ
  execs : Nat
deriving Repr, DecidableEq

/-- The retry loop of `_execute_payload` (lines 380–395).  `conn k` is the
outcome of the `(k+1)`-th `conn.execute` of this call; `attempt` is the
source's counter before the current try.  The fuel argument makes the
recursion structural; the loop runs at most `max_retries + 1` times
because `attempt` grows by one per transient failure and the loop stops
once `attempt > max_retries`, so fuel `max_retries + 1 - attempt` is
exact. -/
def execAux (conn : Nat → WriteOutcome) (max_retries rows : Nat) (base_sleep : ℚ) :
    Nat → Nat → Nat → ExecResult
  | 0, k, _ => ⟨0, [], [], k⟩
  | Nat.succ fuel, k, attempt =>
    match conn k with
    | WriteOutcome.ok => ⟨rows, [], [], k + 1⟩
    | WriteOutcome.fatal m =>
      ⟨0, ["upsert error (" ++ toString rows ++ " rows): " ++ m], [], k + 1⟩
    | WriteOutcome.transient m =>
      if attempt + 1 > max_retries then
        ⟨0, ["upsert retries exceeded (" ++ toString rows ++ " rows): " ++ m], [], k + 1⟩
      else
        let r := execAux conn max_retries rows base_sleep fuel (k + 1) (attempt + 1)
        ⟨r.updated, r.errors, base_sleep * 2 ^ attempt :: r.sleeps, r.execs⟩

/-- `_execute_payload` (lines 370–395) for a micro-batch of `rows` rows:
empty payloads return immediately; otherwise the retry loop runs starting
at attempt 0. -/
def executePayload (conn : Nat → WriteOutcome) (max_retries : Nat) (base_sleep : ℚ)
    (rows : Nat) : ExecResult :=
  if rows = 0 then ⟨0, [], [], 0⟩
  else execAux conn max_retries rows base_sleep (max_retries + 1) 0 0

/-- `_chunks` (lines 362–364) with the list length as structural fuel:
each step consumes at least one element because the call sites clamp the
size to at least 1, so the fuel is exact; a zero size cannot occur and
yields the empty chunking. -/
def chunksGo (size : Nat) : Nat → List α → List (List α)
  | 0, _ => []
  | _, [] => []
  | Nat.succ fuel, l => l.take size :: chunksGo size fuel (l.drop size)

/-- `_chunks(seq, size)`: successive slices of `size` elements. -/
def chunksList (l : List α) (size : Nat) : List (List α) :=
  if size = 0 then [] else chunksGo size l.length l

/-- The outer batch-size clamp (line 298): `max(1, min(batch_size, 100))`. -/
def clampBatch (batch_size : Nat) : Nat := Nat.max 1 (Nat.min batch_size 100)

/-- The micro batch-size clamp (line 299):
`max(1, min(micro_batch_size, batch_size))`. -/
def clampMicro (micro_batch_size batch_size : Nat) : Nat :=
  Nat.max 1 (Nat.min micro_batch_size batch_size)

/-- The cumulative effect of the metric-write loop. -/
structure WriteState where
  updated : Nat
  errors : List String
  sleeps : List ℚ
  execs : Nat
deriving Repr, DecidableEq

/-- The metric-write loop of `update_all_students` (lines 397–403): outer
chunks of the clamped batch size, each subdivided into micro chunks of the
clamped micro size, each written by `_execute_payload`.  `conn` indexes
the successive `conn.execute` outcomes globally in execution order; the
column filtering of line 402 preserves the row count, so each payload has
exactly the micro chunk's length. -/
def writeAll (conn : Nat → WriteOutcome) (results : List α)
    (batch_size micro_batch_size max_retries : Nat) (base_sleep : ℚ) : WriteState :=
  let bc := clampBatch batch_size
  let mc := clampMicro micro_batch_size bc
  (chunksList results bc).foldl
    (fun st outer =>
      (chunksList outer mc).foldl
        (fun st2 micro =>
          let r := executePayload (fun j => conn (st2.execs + j)) max_retries base_sleep micro.length
          ⟨st2.updated + r.updated, st2.errors ++ r.errors,
            st2.sleeps ++ r.sleeps, st2.execs + r.execs⟩)
        st)
    ⟨0, [], [], 0⟩

/-! ## Concrete fixtures and helper lemmas -/

/-- The metrics record with every nullable field `None` and zero repo
counts — exactly what `compute_stats` derives from empty payloads. -/
def sampleStats : StatsRec :=
  ⟨Option.none, Option.none, Option.none, 0, 0, Option.none, Option.none,
   Option.none, Option.none, Option.none, Option.none, Option.none,
   Option.none, Option.none, Option.none, Option.none, Option.none,
   Option.none, Option.none, Option.none⟩

/-- Providers whose every call returns a well-formed empty payload
(no exception anywhere). -/
def okProviders : Providers :=
  ⟨fun _ => Except.ok (Val.dict []), fun _ => Except.ok (Val.dict []),
   fun _ => Except.ok (Val.dict []), fun _ => Except.ok (Val.dict []),
   fun _ => Except.ok (Val.dict []), fun _ => Except.ok (Val.dict [])⟩

/-- A three-row roster: one row with only a version-control handle, one
with both handles, one with neither. -/
def c2Rows : List RosterRow :=
  [⟨1, some "g", Option.none, some "A"⟩,
   ⟨2, some "g2", some "l2", some "B"⟩,
   ⟨3, Option.none, Option.none, some "C"⟩]

/-- The orchestrator's accumulated state on `c2Rows` with all-succeeding
providers. -/
def c2Agg : FetchAgg := runFetch 0 okProviders "students" (prepareWork c2Rows)

/-- A successful result whose most recent submission is dated 2024-06-18
(epoch day 19892) and whose most recent accepted submission is absent. -/
def c1Stats : StatsRec :=
  { sampleStats with lc_lastsubmission := some "2024-06-18" }

/-- Helper: `Except.ok` bind reduction, to evaluate the monadic embedding
stepwise. -/
theorem ok_bind {α β : Type} (a : α) (f : α → Except String β) :
    (Except.ok a >>= f) = f a := rfl

/-! ## C2 — fetch orchestrator contract -/

/-- C2: evaluation of the code at the failing input.  The roster row with
only a version-control handle is prepared as a work item, every provider
call for it returns normally, and yet the orchestrator yields an error
string rather than a success tuple: the source assigns `lc_calendar` (and
`git_contri`) only under the corresponding handle's `if`, so an identity
with exactly one handle always raises `UnboundLocalError` at the
`compute_stats` call.  The identity with both handles succeeds, and the
identity with neither handle is skipped at work preparation. -/
theorem c2_code_evaluation :
    prepareWork c2Rows = [⟨1, "g", "", "A"⟩, ⟨2, "g2", "l2", "B"⟩] ∧
    c2Agg.errors =
      ["roll=1: UnboundLocalError: cannot access local variable 'lc_calendar' where it is not associated with a value"] ∧
    c2Agg.results.map (fun r => r.1) = [2] ∧
    (fetchAndCompute 0 okProviders ⟨1, "g", "", "A"⟩).2.1 = Option.none :=
  ⟨by decide, by decide, by decide, rfl⟩

/-! ## C3 — totality of the metric deriver -/

/-- C3 (counterexample): `compute_stats` is not total over loosely-typed
payload dictionaries: a `git_json` whose `overall_last_commit` value is a
non-empty string reaches `overall.get("date")` on a non-dict receiver
(lines 59–61 sit outside every `try`), raising `AttributeError`, so the
claim that the deriver never raises for any loosely-typed value shape is
false. -/
theorem c3_counterexample :
    computeStats 0 (Val.dict [("overall_last_commit", Val.str "x")]) (Val.dict [])
      (Val.dict []) (Val.dict []) Option.none Option.none =
    Except.error "AttributeError: object has no attribute get" := rfl

/-! ## C4 — day-set construction and empty cases -/

/-- The day contributed by one calendar entry, when no exception occurs:
entries with a `None` count, a non-digit key, or a non-positive timestamp
contribute nothing; every other entry — zero counts included — contributes
its UTC day. -/
def dayOfEntry (kv : String × Val) : Option Int :=
  if isNullVal kv.2 = false ∧ isDigitStr (pyStrip kv.1) = true ∧
      0 < digitsToNat (pyStrip kv.1) then
    some (epochDay (digitsToNat (pyStrip kv.1) : Int))
  else Option.none

/-- C4 (counterexample): on the empty input map `_calc_streaks` returns
`(None, None)` (line 137), not `(0, 0)`; and zero counts are not excluded
from the day set — line 143 skips only `None` counts — so key 86400 with
count `0` yields the one-day set `[1]` and streaks `(0, 1)` where the
claim predicts an empty set and `(0, 0)`. -/
theorem c4_counterexample :
    calcStreaks 0 (Val.dict []) = (Option.none, Option.none) ∧
    ((Option.none : Option Nat), (Option.none : Option Nat)) ≠ (some 0, some 0) ∧
    streakDaySet [("86400", Val.int 0)] = Except.ok [1] ∧
    calcStreaks 0 (Val.dict [("86400", Val.int 0)]) = (some 0, some 1) :=
  ⟨rfl, by decide, rfl, rfl⟩

/-- Helper: on an input map none of whose kept entries overflows
`fromtimestamp`, the day-set fold succeeds and returns exactly the
per-entry days. -/
theorem streakDaySet_go : ∀ (kvs : List (String × Val)) (acc : List Int),
    (∀ kv ∈ kvs, isNullVal kv.2 = false → isDigitStr (pyStrip kv.1) = true →
      (digitsToNat (pyStrip kv.1) : Int) ≤ maxEpochSecond) →
    kvs.foldlM streakDayStep acc = Except.ok (acc ++ kvs.filterMap dayOfEntry)
  | [], acc, _ => by simp [List.foldlM]; rfl
  | kv :: rest, acc, h => by
    have hkv := h kv (List.mem_cons_self kv rest)
    have hrest := fun kv2 hm => h kv2 (List.mem_cons_of_mem kv hm)
    have step : ∃ acc2, streakDayStep acc kv = Except.ok acc2 ∧
        acc2 = acc ++ (dayOfEntry kv).toList := by
      cases hv : isNullVal kv.2 with
      | true =>
        exact ⟨acc, by simp [streakDayStep, hv], by simp [dayOfEntry, hv]⟩
      | false =>
        cases hd : isDigitStr (pyStrip kv.1) with
        | false =>
          exact ⟨acc, by simp [streakDayStep, hv, hd], by simp [dayOfEntry, hd]⟩
        | true =>
          cases hz : decide (0 < digitsToNat (pyStrip kv.1)) with
          | false =>
            have hz0 : digitsToNat (pyStrip kv.1) = 0 := by
              have := of_decide_eq_false hz; omega
            refine ⟨acc, ?_, ?_⟩
            · simp [streakDayStep, hv, hd, hz0]
            · simp [dayOfEntry, hz0]
          | true =>
            have hzp : 0 < digitsToNat (pyStrip kv.1) := of_decide_eq_true hz
            have hle := hkv hv hd
            refine ⟨acc ++ [epochDay (digitsToNat (pyStrip kv.1) : Int)], ?_, ?_⟩
            · simp only [streakDayStep, hv, Bool.false_eq_true, if_false]
              rw [if_pos hd, if_neg (by omega), if_neg (by omega)]
            · simp [dayOfEntry, hv, hd, hzp]
    obtain ⟨acc2, hstep, hacc2⟩ := step
    calc (kv :: rest).foldlM streakDayStep acc
        = streakDayStep acc kv >>= fun a => rest.foldlM streakDayStep a := rfl
      _ = rest.foldlM streakDayStep acc2 := by rw [hstep]; exact rfl
      _ = Except.ok (acc2 ++ rest.filterMap dayOfEntry) := streakDaySet_go rest acc2 hrest
      _ = Except.ok (acc ++ (kv :: rest).filterMap dayOfEntry) := by
          subst hacc2
          cases hde : dayOfEntry kv <;> simp [List.filterMap_cons, hde]

/-- C4 (amended): the day set excludes `None` counts, non-digit keys and
non-positive timestamps — zero counts are included, contributing their day
— and an out-of-range timestamp aborts the computation; when the input map
is empty (or not a dict) both streaks are `None`, not `0`; when the input
map is non-empty and the day set comes out empty, both streaks are `0`. -/
theorem c4_amended (today : Int) :
    calcStreaks today (Val.dict []) = (Option.none, Option.none) ∧
    (∀ kvs : List (String × Val),
      (∀ kv ∈ kvs, isNullVal kv.2 = false → isDigitStr (pyStrip kv.1) = true →
        (digitsToNat (pyStrip kv.1) : Int) ≤ maxEpochSecond) →
      streakDaySet kvs = Except.ok (kvs.filterMap dayOfEntry)) ∧
    (∀ kvs : List (String × Val), kvs ≠ [] → streakDaySet kvs = Except.ok [] →
      calcStreaks today (Val.dict kvs) = (some 0, some 0)) := by
  refine ⟨rfl, ?_, ?_⟩
  · intro kvs h
    simpa [streakDaySet] using streakDaySet_go kvs [] h
  · intro kvs hne hds
    have hemp : kvs.isEmpty = false := by
      cases kvs with
      | nil => exact absurd rfl hne
      | cons a l => rfl
    simp [calcStreaks, hemp, hds]

/-- C4 (witness): the amended theorem applied at concrete inputs — a
zero-count entry whose day is kept, and a non-empty map whose day set is
empty. -/
theorem c4_amended_witness :
    streakDaySet [("86400", Val.int 0)] =
      Except.ok ([(("86400" : String), Val.int 0)].filterMap dayOfEntry) ∧
    calcStreaks 0 (Val.dict [("x", Val.int 1)]) = (some 0, some 0) := by
  constructor
  · exact (c4_amended 0).2.1 [("86400", Val.int 0)]
      (by intro kv hkv h1 h2
          have : kv = ("86400", Val.int 0) := by simpa using hkv
          subst this
          decide)
  · exact (c4_amended 0).2.2 [("x", Val.int 1)] (List.cons_ne_nil _ _) rfl

/-! ## C6 — epoch-seconds versus epoch-milliseconds normalization -/

/-- C6 (counterexample): `_to_date_only` has no milliseconds guard — a
pure-digit string is always read as epoch seconds (line 72) — so the
13-digit milliseconds form of 2023-11-14T22:13:20Z normalizes to `None`
(an out-of-range `fromtimestamp` caught by the outer `try`), not to the
date its seconds form yields. -/
theorem c6_counterexample :
    toDateOnly (Val.str "1700000000") = some "2023-11-14" ∧
    toDateOnly (Val.str "1700000000000") = Option.none ∧
    some "2023-11-14" ≠ (Option.none : Option String) :=
  ⟨by decide, by decide, by decide⟩

/-- C6 (amended): the milliseconds guard lives in the history
normalization (lines 200–203), not in `_to_date_only`: there, a digit key
holding epoch seconds and the equivalent epoch-milliseconds key (more than
ten digits, value 1000× the seconds) normalize to the identical
`YYYY-MM-DD` date, and the history loop body treats both entries
identically. -/
theorem c6_amended (s sms : String)
    (hs : isDigitStr (pyStrip s) = true) (hsms : isDigitStr (pyStrip sms) = true)
    (hms : digitsToNat (pyStrip sms) = 1000 * digitsToNat (pyStrip s))
    (hlo : 10 ^ 7 < digitsToNat (pyStrip s)) (hhi : digitsToNat (pyStrip s) ≤ 10 ^ 10) :
    ∃ d : String,
      lcHistTsDate (digitsToNat (pyStrip s)) = Except.ok d ∧
      lcHistTsDate (digitsToNat (pyStrip sms)) = Except.ok d ∧
      ∀ v : Val, lcHistStep [] (s, v) = lcHistStep [] (sms, v) := by
  have h10 : (10 : Nat) ^ 10 = 10000000000 := by norm_num
  have h7 : (10 : Nat) ^ 7 = 10000000 := by norm_num
  set t := digitsToNat (pyStrip s) with ht
  have hguards : ¬ t > 10 ^ 10 := by omega
  have hguardms : digitsToNat (pyStrip sms) > 10 ^ 10 := by omega
  have hdiv : 1000 * t / 1000 = t := by omega
  have hrange : (decide ((t : Int) < minEpochSecond) ||
      decide ((t : Int) > maxEpochSecond)) = false := by
    have h1 : (0 : Int) ≤ (t : Int) := Int.ofNat_nonneg t
    have h2 : (t : Int) ≤ 10000000000 := by exact_mod_cast (by omega : t ≤ 10000000000)
    simp only [Bool.or_eq_false_iff, decide_eq_false_iff_not, not_lt]
    constructor
    · simp only [minEpochSecond]; omega
    · simp only [gt_iff_lt, not_lt, maxEpochSecond]; omega
  have e1 : lcHistTsDate t = Except.ok (fmtYMD (civilFromDays ((t : Int) / 86400))) := by
    simp only [lcHistTsDate, if_neg hguards, fromtimestampDate, hrange,
      Bool.false_eq_true, if_false, ok_bind]
  have e2 : lcHistTsDate (digitsToNat (pyStrip sms)) =
      Except.ok (fmtYMD (civilFromDays ((t : Int) / 86400))) := by
    rw [hms]
    simp only [lcHistTsDate, if_pos (by omega : 1000 * t > 10 ^ 10), hdiv,
      fromtimestampDate, hrange, Bool.false_eq_true, if_false, ok_bind]
  refine ⟨fmtYMD (civilFromDays ((t : Int) / 86400)), e1, e2, ?_⟩
  intro v
  have e2' : lcHistTsDate (1000 * t) = Except.ok (fmtYMD (civilFromDays ((t : Int) / 86400))) := by
    rw [← hms]; exact e2
  simp only [lcHistStep, hs, hsms, if_true, hms, e1, e2', ok_bind]

/-- C6 (witness): the amended theorem applied to the seconds string
`"1700000000"` and its milliseconds form `"1700000000000"`. -/
theorem c6_amended_witness :
    ∃ d : String,
      lcHistTsDate (digitsToNat (pyStrip "1700000000")) = Except.ok d ∧
      lcHistTsDate (digitsToNat (pyStrip "1700000000000")) = Except.ok d ∧
      ∀ v : Val, lcHistStep [] ("1700000000", v) = lcHistStep [] ("1700000000000", v) :=
  c6_amended "1700000000" "1700000000000" (by decide) (by decide) (by decide)
    (by decide) (by decide)

/-! ## C9 — null versus zero in derived integer fields -/

/-- C9 (counterexample): with no version-control payload at all the
repository counts come out `0` (the `len` of the `or \x7b\x7d` fallback,
lines 53–56), not null — the record type itself cannot hold a null there —
while the safe-int fields do come out null. -/
theorem c9_counterexample :
    ∃ r : StatsRec,
      computeStats 0 (Val.dict []) (Val.dict []) (Val.dict []) (Val.dict [])
        Option.none Option.none = Except.ok r ∧
      r.git_original_repo = 0 ∧ r.git_authored_repo = 0 ∧
      r.git_followers = Option.none :=
  ⟨sampleStats, rfl, rfl, rfl, rfl⟩

/-- C9 (amended): on empty payloads every nullable field of the derived
record is null — never `0` as a stand-in — but the original-repository and
forked-and-authored counts are the integer `0` (their type is not
nullable), which is exactly where the stated claim fails. -/
theorem c9_amended :
    computeStats 0 (Val.dict []) (Val.dict []) (Val.dict []) (Val.dict [])
      Option.none Option.none = Except.ok sampleStats ∧
    sampleStats.git_followers = Option.none ∧
    sampleStats.git_following = Option.none ∧
    sampleStats.git_public_repo = Option.none ∧
    sampleStats.lc_total_solved = Option.none ∧
    sampleStats.lc_ranking = Option.none ∧
    sampleStats.git_original_repo = 0 ∧
    sampleStats.git_authored_repo = 0 :=
  ⟨rfl, rfl, rfl, rfl, rfl, rfl, rfl, rfl⟩

/-! ## C10 — unparseable last-submission dates -/

/-- C10: a successful result whose `lc_lastsubmission` is a non-empty
string that `strptime` rejects is treated as stale: the `except` at line
347 sets the flag, so the completion loop queues a notification upsert
with the fixed reason — it neither raises, nor skips the individual, nor
queues a removal. -/
theorem c10_unparseable_stale (today : Int) (source_table : String) (acc : FetchAgg)
    (roll : Int) (st : StatsRec) (name s : String)
    (hs : st.lc_lastsubmission = some s) (hne : s ≠ "")
    (hp : parseYMDord s = Option.none) :
    processCompletion today source_table acc (roll, some st, name, Option.none) =
      { acc with
        results := acc.results ++ [(roll, st, name)]
        toAdd := acc.toAdd ++ [⟨source_table, roll, name, staleReason⟩] } := by
  have hflag : notifFlag today st.lc_lastsubmission = true := by
    rw [hs]
    simp [notifFlag, hne, hp]
  simp [processCompletion, hflag]

/-- C10 (witness): the theorem applied to the unparseable date string
`"not-a-date"`. -/
theorem c10_unparseable_stale_witness :
    ({ sampleStats with lc_lastsubmission := some "not-a-date" } : StatsRec).lc_lastsubmission
        = some "not-a-date" ∧
    "not-a-date" ≠ "" ∧
    parseYMDord "not-a-date" = Option.none ∧
    processCompletion 0 "students" emptyAgg
        (7, some { sampleStats with lc_lastsubmission := some "not-a-date" }, "N",
          Option.none) =
      { emptyAgg with
        results := [(7, { sampleStats with lc_lastsubmission := some "not-a-date" }, "N")]
        toAdd := [⟨"students", 7, "N", staleReason⟩] } :=
  ⟨rfl, by decide, by decide,
    c10_unparseable_stale 0 "students" emptyAgg 7
      { sampleStats with lc_lastsubmission := some "not-a-date" } "N" "not-a-date"
      rfl (by decide) (by decide)⟩

/-! ## C1 — the staleness rule reads `lc_lastsubmission` -/

/-- Helper: one completion-loop step preserves the correspondence between
the accumulated notification queues and the flagged results. -/
theorem processCompletion_notifs (today : Int) (tbl : String) (acc : FetchAgg)
    (c : Int × Option StatsRec × String × Option String)
    (ha : acc.toAdd = (acc.results.filter
        (fun r => notifFlag today r.2.1.lc_lastsubmission)).map
        (fun r => (⟨tbl, r.1, r.2.2, staleReason⟩ : NotifAdd)))
    (hr : acc.toRemove = (acc.results.filter
        (fun r => !notifFlag today r.2.1.lc_lastsubmission)).map (fun r => r.1)) :
    (processCompletion today tbl acc c).toAdd =
      (((processCompletion today tbl acc c).results.filter
        (fun r => notifFlag today r.2.1.lc_lastsubmission)).map
        (fun r => (⟨tbl, r.1, r.2.2, staleReason⟩ : NotifAdd))) ∧
    (processCompletion today tbl acc c).toRemove =
      (((processCompletion today tbl acc c).results.filter
        (fun r => !notifFlag today r.2.1.lc_lastsubmission)).map (fun r => r.1)) := by
  obtain ⟨roll, stats?, name, err?⟩ := c
  cases err? with
  | some e => simpa [processCompletion] using ⟨ha, hr⟩
  | none =>
    cases stats? with
    | none => simpa [processCompletion] using ⟨ha, hr⟩
    | some st =>
      cases hf : notifFlag today st.lc_lastsubmission with
      | true =>
        constructor
        · simp [processCompletion, hf, List.filter_append, ha]
        · simp [processCompletion, hf, List.filter_append, hr]
      | false =>
        constructor
        · simp [processCompletion, hf, List.filter_append, ha]
        · simp [processCompletion, hf, List.filter_append, hr]

/-- Helper: the correspondence holds for the whole fetch-stage fold. -/
theorem runFetch_notifs_aux (today : Int) (P : Providers) (tbl : String) :
    ∀ (work : List WorkItem) (acc : FetchAgg),
      acc.toAdd = (acc.results.filter
        (fun r => notifFlag today r.2.1.lc_lastsubmission)).map
        (fun r => (⟨tbl, r.1, r.2.2, staleReason⟩ : NotifAdd)) →
      acc.toRemove = (acc.results.filter
        (fun r => !notifFlag today r.2.1.lc_lastsubmission)).map (fun r => r.1) →
      (work.foldl
        (fun a item => processCompletion today tbl a (fetchAndCompute today P item))
        acc).toAdd =
        ((work.foldl
          (fun a item => processCompletion today tbl a (fetchAndCompute today P item))
          acc).results.filter
          (fun r => notifFlag today r.2.1.lc_lastsubmission)).map
          (fun r => (⟨tbl, r.1, r.2.2, staleReason⟩ : NotifAdd)) ∧
      (work.foldl
        (fun a item => processCompletion today tbl a (fetchAndCompute today P item))
        acc).toRemove =
        ((work.foldl
          (fun a item => processCompletion today tbl a (fetchAndCompute today P item))
          acc).results.filter
          (fun r => !notifFlag today r.2.1.lc_lastsubmission)).map (fun r => r.1)
  | [], acc, ha, hr => ⟨ha, hr⟩
  | item :: rest, acc, ha, hr => by
    have step := processCompletion_notifs today tbl acc (fetchAndCompute today P item) ha hr
    exact runFetch_notifs_aux today P tbl rest
      (processCompletion today tbl acc (fetchAndCompute today P item)) step.1 step.2

/-- C1 (amended): the staleness decision of the reconciliation loop reads
the derived `lc_lastsubmission` (most recent submission of any status),
not the last *accepted* submission: a result is flagged — and gets the
queued `NotificationRecord` upsert with the fixed reason — exactly when
that value is `None`, empty, unparseable, or parses to a date more than 3
days before today's UTC date (so exactly 3 days old is not flagged, 4 days
old is); unflagged results are queued for notification removal instead. -/
theorem c1_amended (today : Int) :
    (∀ (P : Providers) (tbl : String) (work : List WorkItem),
      (runFetch today P tbl work).toAdd =
        (((runFetch today P tbl work).results.filter
          (fun r => notifFlag today r.2.1.lc_lastsubmission)).map
          (fun r => (⟨tbl, r.1, r.2.2, staleReason⟩ : NotifAdd))) ∧
      (runFetch today P tbl work).toRemove =
        (((runFetch today P tbl work).results.filter
          (fun r => !notifFlag today r.2.1.lc_lastsubmission)).map (fun r => r.1))) ∧
    notifFlag today Option.none = true ∧
    (∀ s : String, s ≠ "" → parseYMDord s = Option.none →
      notifFlag today (some s) = true) ∧
    (∀ (s : String) (d : Int), s ≠ "" → parseYMDord s = some d →
      (notifFlag today (some s) = true ↔ today - d > 3)) := by
  refine ⟨?_, rfl, ?_, ?_⟩
  · intro P tbl work
    exact runFetch_notifs_aux today P tbl work emptyAgg rfl rfl
  · intro s hne hp
    simp [notifFlag, hne, hp]
  · intro s d hne hp
    simp [notifFlag, hne, hp]

/-- C1 (witness): the amended theorem at today = 2024-06-18 (epoch day
19892): the date three days back (2024-06-15, day 19889) is not flagged,
the date four days back (2024-06-14, day 19888) is. -/
theorem c1_amended_witness :
    ("2024-06-15" ≠ "") ∧ parseYMDord "2024-06-15" = some 19889 ∧
    (notifFlag 19892 (some "2024-06-15") = true ↔ (19892 : Int) - 19889 > 3) ∧
    ("2024-06-14" ≠ "") ∧ parseYMDord "2024-06-14" = some 19888 ∧
    (notifFlag 19892 (some "2024-06-14") = true ↔ (19892 : Int) - 19888 > 3) ∧
    notifFlag 19892 Option.none = true :=
  ⟨by decide, by decide,
    (c1_amended 19892).2.2.2 "2024-06-15" 19889 (by decide) (by decide),
    by decide, by decide,
    (c1_amended 19892).2.2.2 "2024-06-14" 19888 (by decide) (by decide),
    (c1_amended 19892).2.1⟩

/-- C1 (counterexample): a successful result whose last *accepted*
submission is null but whose last submission is today is not flagged by
the reconciliation loop — no notification upsert is queued and the roll is
queued for removal — contradicting the claim that flagging follows the
last-accepted-submission date. -/
theorem c1_counterexample :
    c1Stats.lc_lastacceptedsubmission = Option.none ∧
    (processCompletion 19892 "students" emptyAgg
      (5, some c1Stats, "N", Option.none)).toAdd = [] ∧
    (processCompletion 19892 "students" emptyAgg
      (5, some c1Stats, "N", Option.none)).toRemove = [5] :=
  ⟨rfl, by decide, by decide⟩

/-! ## C7 — retry policy of `_execute_payload` -/

/-- Helper: `j` transient failures followed by a success give a full-row
update with no error, the back-off sleeps `base * 2 ^ (attempt - 1)` for
attempts `1..j`, and `j + 1` executes. -/
theorem execAux_transient_then_ok (conn : Nat → WriteOutcome) (mr rows : Nat) (base : ℚ) :
    ∀ (j k attempt : Nat), attempt + j ≤ mr →
      (∀ i, i < j → ∃ m, conn (k + i) = WriteOutcome.transient m) →
      conn (k + j) = WriteOutcome.ok →
      execAux conn mr rows base (mr + 1 - attempt) k attempt =
        ⟨rows, [], (List.range j).map (fun i => base * 2 ^ (attempt + i)), k + j + 1⟩
  | 0, k, attempt, hle, _, hok => by
    obtain ⟨f, hf⟩ : ∃ f, mr + 1 - attempt = f + 1 := ⟨mr - attempt, by omega⟩
    rw [hf]
    have hok0 : conn k = WriteOutcome.ok := by simpa using hok
    simp [execAux, hok0]
  | j + 1, k, attempt, hle, htr, hok => by
    obtain ⟨m0, hm0⟩ := htr 0 (by omega)
    have hm0k : conn k = WriteOutcome.transient m0 := by simpa using hm0
    obtain ⟨f, hf⟩ : ∃ f, mr + 1 - attempt = f + 1 := ⟨mr - attempt, by omega⟩
    rw [hf]
    simp only [execAux, hm0k]
    rw [if_neg (by omega : ¬ attempt + 1 > mr)]
    have hf2 : f = mr + 1 - (attempt + 1) := by omega
    have ih := execAux_transient_then_ok conn mr rows base j (k + 1) (attempt + 1)
      (by omega)
      (fun i hi => by
        obtain ⟨m, hm⟩ := htr (i + 1) (by omega)
        exact ⟨m, by rw [show k + 1 + i = k + (i + 1) from by omega]; exact hm⟩)
      (by rw [show k + 1 + j = k + (j + 1) from by omega]; exact hok)
    rw [hf2, ih]
    have hsl : base * 2 ^ attempt ::
        (List.range j).map (fun i => base * 2 ^ (attempt + 1 + i)) =
        (List.range (j + 1)).map (fun i => base * 2 ^ (attempt + i)) := by
      rw [List.range_succ_eq_map, List.map_cons, List.map_map]
      refine congrArg₂ List.cons (by rw [Nat.add_zero]) ?_
      refine List.map_congr_left ?_
      intro a _
      show base * 2 ^ (attempt + 1 + a) = base * 2 ^ (attempt + Nat.succ a)
      rw [show attempt + 1 + a = attempt + Nat.succ a from by omega]
    simp only [ExecResult.mk.injEq]
    exact ⟨trivial, trivial, hsl, by omega⟩

/-- The database behavior of the chunk-isolation scenario: the first four
executes fail transiently (exhausting the first micro-chunk's retries),
every later execute succeeds. -/
def c7Conn : Nat → WriteOutcome :=
  fun k => if k < 4 then WriteOutcome.transient "OperationalError: reset"
           else WriteOutcome.ok

/-- C7: the retry policy of `_execute_payload` with the default ceiling of
3 retries.  (1) Up to 3 transient failures followed by a success count all
rows, record no error, and sleep `base * 2^(attempt-1)` before each retry;
(2) four transient failures exceed the ceiling and record one error naming
the row count and the last cause, after exactly 3 back-off sleeps and 4
executes; (3) a non-transient error is recorded immediately, with no retry
and no sleep; (4) a chunk that exhausts its retries is abandoned alone —
the following chunk is still written and its rows counted. -/
theorem c7_retry_policy :
    (∀ (conn : Nat → WriteOutcome) (rows j : Nat) (base : ℚ), 0 < rows → j ≤ 3 →
      (∀ i, i < j → ∃ m, conn i = WriteOutcome.transient m) →
      conn j = WriteOutcome.ok →
      executePayload conn 3 base rows =
        ⟨rows, [], (List.range j).map (fun i => base * 2 ^ i), j + 1⟩) ∧
    (∀ (conn : Nat → WriteOutcome) (rows : Nat) (base : ℚ) (m0 m1 m2 m3 : String),
      0 < rows →
      conn 0 = WriteOutcome.transient m0 → conn 1 = WriteOutcome.transient m1 →
      conn 2 = WriteOutcome.transient m2 → conn 3 = WriteOutcome.transient m3 →
      executePayload conn 3 base rows =
        ⟨0, ["upsert retries exceeded (" ++ toString rows ++ " rows): " ++ m3],
          [base * 2 ^ 0, base * 2 ^ 1, base * 2 ^ 2], 4⟩) ∧
    (∀ (conn : Nat → WriteOutcome) (rows : Nat) (base : ℚ) (m : String), 0 < rows →
      conn 0 = WriteOutcome.fatal m →
      executePayload conn 3 base rows =
        ⟨0, ["upsert error (" ++ toString rows ++ " rows): " ++ m], [], 1⟩) ∧
    ((writeAll c7Conn (List.range 10) 5 5 3 (1/2 : ℚ)).updated = 5 ∧
      (writeAll c7Conn (List.range 10) 5 5 3 (1/2 : ℚ)).errors =
        ["upsert retries exceeded (5 rows): OperationalError: reset"] ∧
      (writeAll c7Conn (List.range 10) 5 5 3 (1/2 : ℚ)).execs = 5) := by
  refine ⟨?_, ?_, ?_, rfl, rfl, rfl⟩
  · intro conn rows j base hrows hj htr hok
    have hrne : ¬ rows = 0 := by omega
    have := execAux_transient_then_ok conn 3 rows base j 0 0 (by omega)
      (fun i hi => by simpa using htr i hi) (by simpa using hok)
    simp only [executePayload, if_neg hrne]
    simpa using this
  · intro conn rows base m0 m1 m2 m3 hrows h0 h1 h2 h3
    have hrne : ¬ rows = 0 := by omega
    simp only [executePayload, if_neg hrne, execAux, h0, h1, h2, h3]
    norm_num
  · intro conn rows base m hrows hm
    have hrne : ¬ rows = 0 := by omega
    simp only [executePayload, if_neg hrne, execAux, hm]

/-- C7 (witness): the retry-policy theorem applied to a database that
fails transiently twice and then succeeds on the second retry, to one that
always fails transiently, and to one that fails fatally. -/
theorem c7_retry_policy_witness :
    executePayload
        (fun i => if i < 2 then WriteOutcome.transient "OperationalError: reset"
                  else WriteOutcome.ok) 3 (1/2 : ℚ) 5 =
      ⟨5, [], (List.range 2).map (fun i => (1/2 : ℚ) * 2 ^ i), 3⟩ ∧
    executePayload (fun _ => WriteOutcome.transient "OperationalError: reset")
        3 (1/2 : ℚ) 5 =
      ⟨0, ["upsert retries exceeded (" ++ toString 5 ++ " rows): " ++
            "OperationalError: reset"],
        [(1/2 : ℚ) * 2 ^ 0, (1/2 : ℚ) * 2 ^ 1, (1/2 : ℚ) * 2 ^ 2], 4⟩ ∧
    executePayload (fun _ => WriteOutcome.fatal "IntegrityError: duplicate")
        3 (1/2 : ℚ) 5 =
      ⟨0, ["upsert error (" ++ toString 5 ++ " rows): " ++
            "IntegrityError: duplicate"], [], 1⟩ :=
  ⟨c7_retry_policy.1
      (fun i => if i < 2 then WriteOutcome.transient "OperationalError: reset"
                else WriteOutcome.ok)
      5 2 (1/2 : ℚ) (by omega) (by omega)
      (fun i hi => ⟨"OperationalError: reset", by simp [hi]⟩) rfl,
    c7_retry_policy.2.1 (fun _ => WriteOutcome.transient "OperationalError: reset")
      5 (1/2 : ℚ) _ _ _ _ (by omega) rfl rfl rfl rfl,
    c7_retry_policy.2.2.1 (fun _ => WriteOutcome.fatal "IntegrityError: duplicate")
      5 (1/2 : ℚ) _ (by omega) rfl⟩

/-! ## C8 — batch structure of the write stage -/

/-- Helper: with positive size and sufficient fuel, the number of chunks
is the ceiling of length over size. -/
theorem chunksGo_length {α : Type} (k : Nat) (hk : 0 < k) :
    ∀ (fuel : Nat) (l : List α), l.length ≤ fuel →
      (chunksGo k fuel l).length = (l.length + k - 1) / k
  | 0, l, hl => by
    have : l = [] := List.eq_nil_of_length_eq_zero (by omega)
    subst this
    simp [chunksGo, Nat.div_eq_of_lt (by omega : k - 1 < k)]
  | fuel + 1, l, hl => by
    cases l with
    | nil => simp [chunksGo, Nat.div_eq_of_lt (by omega : k - 1 < k)]
    | cons a t =>
      have hlen : ((a :: t).drop k).length ≤ fuel := by
        simp only [List.length_drop, List.length_cons] at hl ⊢
        omega
      have ih := chunksGo_length k hk fuel ((a :: t).drop k) hlen
      show ((a :: t).take k :: chunksGo k fuel ((a :: t).drop k)).length =
        ((a :: t).length + k - 1) / k
      rw [List.length_cons, ih, List.length_drop, List.length_cons]
      have h1 : (t.length + 1 + k - 1) / k = (t.length + 1 - 1) / k + 1 := by
        rw [Nat.div_eq_sub_div hk (by omega : k ≤ t.length + 1 + k - 1),
          show t.length + 1 + k - 1 - k = t.length + 1 - 1 from by omega]
      rw [h1]
      by_cases hnk : t.length + 1 ≤ k
      · rw [show t.length + 1 - k = 0 from by omega]
        rw [Nat.div_eq_of_lt (by omega : 0 + k - 1 < k),
          Nat.div_eq_of_lt (by omega : t.length + 1 - 1 < k)]
      · rw [show t.length + 1 - k + k - 1 = t.length + 1 - 1 from by omega]

/-- Helper: every chunk has at most `size` elements. -/
theorem chunksGo_mem_length {α : Type} (k : Nat) :
    ∀ (fuel : Nat) (l : List α) (c : List α), c ∈ chunksGo k fuel l → c.length ≤ k
  | 0, l, c, h => absurd h (by simp [chunksGo])
  | fuel + 1, [], c, h => absurd h (by simp [chunksGo])
  | fuel + 1, a :: t, c, h => by
    rcases List.mem_cons.mp h with hc | hc
    · subst hc
      rw [List.length_take]
      omega
    · exact chunksGo_mem_length k fuel ((a :: t).drop k) c hc

/-- C8: the batching structure of the write stage.  With the clamps of
lines 298–299, splitting `N` results with a positive chunk size yields
`⌈N / size⌉` chunks of at most `size` elements each; for 65 results with
outer size 30 and micro size 8 the outer chunks have lengths 30, 30, 5,
the micro-chunk writes number `⌈30/8⌉ + ⌈30/8⌉ + ⌈5/8⌉ = 9`, and a full
run against an always-succeeding store performs exactly 9 executes
writing all 65 rows. -/
theorem c8_batching :
    (∀ (α : Type) (l : List α) (k : Nat), 0 < k →
      (chunksList l k).length = (l.length + k - 1) / k) ∧
    (∀ (α : Type) (l : List α) (k : Nat) (c : List α), 0 < k →
      c ∈ chunksList l k → c.length ≤ k) ∧
    clampBatch 30 = 30 ∧ clampMicro 8 30 = 8 ∧
    clampBatch 0 = 1 ∧ clampBatch 200 = 100 ∧ clampMicro 50 30 = 30 ∧
    (chunksList (List.range 65) 30).map List.length = [30, 30, 5] ∧
    ((chunksList (List.range 65) 30).map
      (fun c => (chunksList c 8).length)).sum = 9 ∧
    (writeAll (fun _ => WriteOutcome.ok) (List.range 65) 30 8 3 (1/2 : ℚ)).execs = 9 ∧
    (writeAll (fun _ => WriteOutcome.ok) (List.range 65) 30 8 3 (1/2 : ℚ)).updated = 65 := by
  refine ⟨?_, ?_, rfl, rfl, rfl, rfl, rfl, by decide, by decide, rfl, rfl⟩
  · intro α l k hk
    unfold chunksList
    rw [if_neg (by omega : ¬ k = 0)]
    exact chunksGo_length k hk l.length l le_rfl
  · intro α l k c hk hc
    unfold chunksList at hc
    rw [if_neg (by omega : ¬ k = 0)] at hc
    exact chunksGo_mem_length k l.length l c hc

/-- C8 (witness): the chunk-count and chunk-size parts of the batching
theorem applied to a concrete five-element list with chunk size 2. -/
theorem c8_batching_witness :
    (chunksList [10, 20, 30, 40, 50] 2).length = (5 + 2 - 1) / 2 ∧
    ∀ c ∈ chunksList [10, 20, 30, 40, 50] 2, c.length ≤ 2 :=
  ⟨by simpa using c8_batching.1 Nat [10, 20, 30, 40, 50] 2 (by omega),
    fun c hc => c8_batching.2.1 Nat [10, 20, 30, 40, 50] 2 c (by omega) hc⟩

/-! ## C5 — ordering properties of the streak computation -/

/-- Helper: the running minimum of the fold is at most its seed. -/
theorem foldl_min_le_init : ∀ (t : List Int) (b : Int), t.foldl min b ≤ b
  | [], b => le_refl b
  | a :: t, b => le_trans (foldl_min_le_init t (min b a)) (min_le_left b a)

/-- Helper: the running maximum of the fold is at least its seed. -/
theorem foldl_max_ge_init : ∀ (t : List Int) (b : Int), b ≤ t.foldl max b
  | [], b => le_refl b
  | a :: t, b => le_trans (le_max_left b a) (foldl_max_ge_init t (max b a))

/-- Helper: `min(days)` is a lower bound of the set. -/
theorem foldl_min_le : ∀ (t : List Int) (h x : Int), x ∈ h :: t → t.foldl min h ≤ x
  | [], h, x, hx => by
    have : x = h := by simpa using hx
    subst this
    exact le_refl x
  | a :: t, h, x, hx => by
    rcases List.mem_cons.mp hx with rfl | hx2
    · calc (a :: t).foldl min x = t.foldl min (min x a) := rfl
        _ ≤ min x a := foldl_min_le_init t _
        _ ≤ x := min_le_left x a
    · rcases List.mem_cons.mp hx2 with rfl | hx3
      · calc (x :: t).foldl min h = t.foldl min (min h x) := rfl
          _ ≤ min h x := foldl_min_le_init t _
          _ ≤ x := min_le_right h x
      · exact foldl_min_le t (min h a) x (List.mem_cons_of_mem _ hx3)

/-- Helper: `max(days)` is an upper bound of the set. -/
theorem foldl_max_ge : ∀ (t : List Int) (h x : Int), x ∈ h :: t → x ≤ t.foldl max h
  | [], h, x, hx => by
    have : x = h := by simpa using hx
    subst this
    exact le_refl x
  | a :: t, h, x, hx => by
    rcases List.mem_cons.mp hx with rfl | hx2
    · calc x ≤ max x a := le_max_left x a
        _ ≤ t.foldl max (max x a) := foldl_max_ge_init t _
        _ = (a :: t).foldl max x := rfl
    · rcases List.mem_cons.mp hx2 with rfl | hx3
      · calc x ≤ max h x := le_max_right h x
          _ ≤ t.foldl max (max h x) := foldl_max_ge_init t _
          _ = (x :: t).foldl max h := rfl
      · exact foldl_max_ge t (max h a) x (List.mem_cons_of_mem _ hx3)

/-- Helper: the forward scan's maximum only grows. -/
theorem scanFold_max_mono (ds : List Int) :
    ∀ (L : List Int) (st : Nat × Nat), st.1 ≤ (L.foldl (scanStep ds) st).1
  | [], _ => le_refl _
  | d :: L, st => by
    have h1 : st.1 ≤ (scanStep ds st d).1 := by
      unfold scanStep
      by_cases hd : d ∈ ds
      · rw [if_pos hd]
        exact Nat.le_max_left _ _
      · rw [if_neg hd]
    exact le_trans h1 (scanFold_max_mono ds L (scanStep ds st d))

/-- Helper: the invariant "running streak ≤ running maximum" is preserved
by the whole forward scan. -/
theorem scanFold_cur_le_max (ds : List Int) :
    ∀ (L : List Int) (st : Nat × Nat), st.2 ≤ st.1 →
      (L.foldl (scanStep ds) st).2 ≤ (L.foldl (scanStep ds) st).1
  | [], _, hst => hst
  | d :: L, st, hst => by
    apply scanFold_cur_le_max ds L (scanStep ds st d)
    unfold scanStep
    by_cases hd : d ∈ ds
    · rw [if_pos hd]
      exact Nat.le_max_right _ _
    · rw [if_neg hd]
      exact Nat.zero_le _

/-- Helper: scanning a block of member days adds the block length to the
running streak. -/
theorem scanFold_run (ds : List Int) :
    ∀ (Q : List Int) (st : Nat × Nat), (∀ x ∈ Q, x ∈ ds) →
      (Q.foldl (scanStep ds) st).2 = st.2 + Q.length
  | [], _, _ => by simp
  | d :: Q, st, hmem => by
    have hd : d ∈ ds := hmem d (List.mem_cons_self d Q)
    have hstep : scanStep ds st d = (Nat.max st.1 (st.2 + 1), st.2 + 1) := by
      simp [scanStep, hd]
    rw [List.foldl_cons, hstep,
      scanFold_run ds Q (Nat.max st.1 (st.2 + 1), st.2 + 1)
        (fun x hx => hmem x (List.mem_cons_of_mem d hx))]
    simp only [List.length_cons]
    omega

/-- Helper: the elements of `rangeI start n` are `start + i` for `i < n`. -/
theorem rangeI_mem {start d : Int} {n : Nat} (hmm : d ∈ rangeI start n) :
    ∃ i : Nat, i < n ∧ d = start + (i : Int) := by
  unfold rangeI at hmm
  obtain ⟨i, hi1, hi2⟩ := List.mem_map.mp hmm
  exact ⟨i, List.mem_range.mp hi1, hi2.symm⟩

/-- Helper: the scanned range has one position per day. -/
theorem rangeI_length (start : Int) (n : Nat) : (rangeI start n).length = n := by
  simp [rangeI]

/-- Helper: the scan range splits additively. -/
theorem rangeI_append (start : Int) (p q : Nat) :
    rangeI start (p + q) = rangeI start p ++ rangeI (start + (p : Int)) q := by
  unfold rangeI
  rw [List.range_add, List.map_append, List.map_map]
  congr 1
  refine List.map_congr_left ?_
  intro x _
  show start + ((p + x : Nat) : Int) = start + (p : Int) + (x : Int)
  push_cast
  ring

/-- Helper: a block of `j` consecutive member days lying inside the
scanned range forces the scan's final maximum to at least `j`. -/
theorem forwardScan_ge_run (ds : List Int) (start : Int) (n : Nat) (c : Int) (j : Nat)
    (h1 : start ≤ c) (h2 : c + (j : Int) ≤ start + (n : Int))
    (hmem : ∀ i : Nat, i < j → c + (i : Int) ∈ ds) :
    j ≤ (forwardScan ds start n).1 := by
  set a := (c - start).toNat with ha
  have hac : start + (a : Int) = c := by omega
  have hsplit : a + (j + (n - a - j)) = n := by omega
  have hdec : rangeI start n =
      rangeI start a ++ (rangeI c j ++ rangeI (c + (j : Int)) (n - a - j)) := by
    have h3 : rangeI start n = rangeI start (a + (j + (n - a - j))) := by rw [hsplit]
    rw [h3, rangeI_append, hac, rangeI_append]
  unfold forwardScan
  rw [hdec, List.foldl_append, List.foldl_append]
  set st1 := (rangeI start a).foldl (scanStep ds) (0, 0) with hst1def
  have hst1 : st1.2 ≤ st1.1 :=
    scanFold_cur_le_max ds (rangeI start a) (0, 0) (le_refl 0)
  have hcur : ((rangeI c j).foldl (scanStep ds) st1).2 = st1.2 + j := by
    rw [scanFold_run ds (rangeI c j) st1
      (fun x hx => by
        obtain ⟨i, hi, rfl⟩ := rangeI_mem hx
        exact hmem i hi),
      rangeI_length]
  have hinv : ((rangeI c j).foldl (scanStep ds) st1).2 ≤
      ((rangeI c j).foldl (scanStep ds) st1).1 :=
    scanFold_cur_le_max ds (rangeI c j) st1 hst1
  have hj2 : j ≤ ((rangeI c j).foldl (scanStep ds) st1).1 := by omega
  exact le_trans hj2 (scanFold_max_mono ds _ _)

/-- Helper: every position the backward walk counts is a member of the
day set. -/
theorem backCount_mem (ds : List Int) :
    ∀ (fuel : Nat) (d : Int) (i : Nat), i < backCount ds d fuel → d - (i : Int) ∈ ds
  | 0, d, i, hlt => absurd hlt (by simp [backCount])
  | fuel + 1, d, i, hlt => by
    by_cases hd : d ∈ ds
    · rw [show backCount ds d (fuel + 1) =
          (if d ∈ ds then backCount ds (d - 1) fuel + 1 else 0) from rfl,
        if_pos hd] at hlt
      cases i with
      | zero => simpa using hd
      | succ i2 =>
        have h2 : i2 < backCount ds (d - 1) fuel := by omega
        have hmem := backCount_mem ds fuel (d - 1) i2 h2
        have hcast : d - ((i2 + 1 : Nat) : Int) = d - 1 - (i2 : Int) := by
          push_cast
          ring
        rw [hcast]
        exact hmem
    · rw [show backCount ds d (fuel + 1) =
          (if d ∈ ds then backCount ds (d - 1) fuel + 1 else 0) from rfl,
        if_neg hd] at hlt
      exact absurd hlt (by omega)

/-- C5: whenever the day set built by `_calc_streaks` is non-empty, the
computation returns `(some cur, some mx)` with `cur ≤ mx` (both are
naturals, hence ≥ 0), and if today's UTC day is not in the set the current
streak is 0 regardless of the longest streak. -/
theorem c5_streak_bounds (today : Int) (kvs : List (String × Val)) (ds : List Int)
    (hds : streakDaySet kvs = Except.ok ds) (hne : ds ≠ []) :
    ∃ cur mx : Nat,
      calcStreaks today (Val.dict kvs) = (some cur, some mx) ∧
      cur ≤ mx ∧ (today ∉ ds → cur = 0) := by
  obtain ⟨h, t, rfl⟩ : ∃ h t, ds = h :: t := by
    cases ds with
    | nil => exact absurd rfl hne
    | cons h t => exact ⟨h, t, rfl⟩
  have hkvs : kvs.isEmpty = false := by
    cases kvs with
    | nil =>
      exfalso
      have hnil : streakDaySet ([] : List (String × Val)) = Except.ok ([] : List Int) := rfl
      rw [hnil] at hds
      exact List.cons_ne_nil h t (Except.ok.inj hds).symm
    | cons a l => rfl
  have hcalc : calcStreaks today (Val.dict kvs) =
      (some (backCount (h :: t) today ((h :: t).dedup.length + 1)),
        some ((forwardScan (h :: t) (t.foldl min h)
          ((t.foldl max h - t.foldl min h).toNat + 1)).1)) := by
    simp [calcStreaks, hkvs, hds]
  refine ⟨backCount (h :: t) today ((h :: t).dedup.length + 1),
    (forwardScan (h :: t) (t.foldl min h)
      ((t.foldl max h - t.foldl min h).toNat + 1)).1, hcalc, ?_, ?_⟩
  · cases hc : backCount (h :: t) today ((h :: t).dedup.length + 1) with
    | zero => exact Nat.zero_le _
    | succ c0 =>
      have hmemi : ∀ i : Nat, i < c0 + 1 → today - (i : Int) ∈ h :: t := by
        intro i hi
        exact backCount_mem (h :: t) _ today i (by rw [hc]; exact hi)
      have htoday : today ∈ h :: t := by simpa using hmemi 0 (by omega)
      have hmn : ∀ x ∈ h :: t, t.foldl min h ≤ x := fun x hx => foldl_min_le t h x hx
      have hmx : ∀ x ∈ h :: t, x ≤ t.foldl max h := fun x hx => foldl_max_ge t h x hx
      have htodaymx : today ≤ t.foldl max h := hmx today htoday
      have hmnmx : t.foldl min h ≤ t.foldl max h :=
        le_trans (hmn today htoday) htodaymx
      have htoNat : ((t.foldl max h - t.foldl min h).toNat : Int) =
          t.foldl max h - t.foldl min h := Int.toNat_of_nonneg (by omega)
      apply forwardScan_ge_run (h :: t) (t.foldl min h)
        ((t.foldl max h - t.foldl min h).toNat + 1) (today - (c0 : Int)) (c0 + 1)
        ?_ ?_ ?_
      · exact hmn _ (by simpa using hmemi c0 (by omega))
      · push_cast
        omega
      · intro i hi
        have hmem2 := hmemi (c0 - i) (by omega)
        have hcast : today - (c0 : Int) + (i : Int) = today - ((c0 - i : Nat) : Int) := by
          omega
        rw [hcast]
        exact hmem2
  · intro hnot
    show backCount (h :: t) today ((h :: t).dedup.length + 1) = 0
    rw [show backCount (h :: t) today ((h :: t).dedup.length + 1) =
        (if today ∈ h :: t then
          backCount (h :: t) (today - 1) ((h :: t).dedup.length) + 1
        else 0) from rfl,
      if_neg hnot]

/-- C5 (witness): the theorem applied to the one-entry calendar whose day
set is `[1]`, at today = 5 (not in the set). -/
theorem c5_streak_bounds_witness :
    streakDaySet [("86400", Val.int 1)] = Except.ok [1] ∧
    ([1] ≠ ([] : List Int)) ∧
    ∃ cur mx : Nat,
      calcStreaks 5 (Val.dict [("86400", Val.int 1)]) = (some cur, some mx) ∧
      cur ≤ mx ∧ ((5 : Int) ∉ ([1] : List Int) → cur = 0) :=
  ⟨rfl, by decide,
    c5_streak_bounds 5 [("86400", Val.int 1)] [1] rfl (by decide)⟩

/-! ## C3 (amended) — totality under documented payload shapes -/

/-- Helper: `pyGet` on a literal dict embedding. -/
theorem pyGet_dict (kvs : List (String × Val)) (k : String) :
    pyGet (Val.dict kvs) k = Except.ok ((assocFind kvs k).getD Val.null) := rfl

/-- Helper: `pyGetD` on a literal dict embedding. -/
theorem pyGetD_dict (kvs : List (String × Val)) (k : String) (dflt : Val) :
    pyGetD (Val.dict kvs) k dflt = Except.ok ((assocFind kvs k).getD dflt) := rfl

/-- Helper: `len(v or {})` succeeds when `v` is null or a dict. -/
theorem pyLen_or_dict (v : Val) (hv : v = Val.null ∨ ∃ kvs, v = Val.dict kvs) :
    ∃ n, pyLen (pyOr v (Val.dict [])) = Except.ok n := by
  rcases hv with rfl | ⟨kvs, rfl⟩
  · exact ⟨0, rfl⟩
  · unfold pyOr
    split
    · exact ⟨kvs.length, rfl⟩
    · exact ⟨0, rfl⟩

/-- Helper: `(v or {}).get(k)` succeeds when `v` is null or a dict. -/
theorem pyGet_or_dict (v : Val) (k : String)
    (hv : v = Val.null ∨ ∃ kvs, v = Val.dict kvs) :
    ∃ w, pyGet (pyOr v (Val.dict [])) k = Except.ok w := by
  rcases hv with rfl | ⟨kvs, rfl⟩
  · exact ⟨Val.null, rfl⟩
  · unfold pyOr
    split
    · exact ⟨(assocFind kvs k).getD Val.null, rfl⟩
    · exact ⟨Val.null, rfl⟩

/-- Helper: the accepted-submission loop succeeds on a list of dicts whose
present `statusDisplay` values are null or strings. -/
theorem findAccepted_ok : ∀ (xs : List Val),
    (∀ x ∈ xs, ∃ kv, x = Val.dict kv ∧
      (∀ w, assocFind kv "statusDisplay" = some w →
        w = Val.null ∨ ∃ s2, w = Val.str s2)) →
    ∃ r, findAccepted xs = Except.ok r
  | [], _ => ⟨Option.none, rfl⟩
  | x :: rest, hx => by
    obtain ⟨kv, rfl, hsd⟩ := hx x (List.mem_cons_self x rest)
    have hlow : ∃ s2, pyLower
        (pyOr ((assocFind kv "statusDisplay").getD Val.null) (Val.str "")) =
        Except.ok s2 := by
      cases hfind : assocFind kv "statusDisplay" with
      | none => exact ⟨"", rfl⟩
      | some w =>
        rcases hsd w hfind with rfl | ⟨s2, rfl⟩
        · exact ⟨"", rfl⟩
        · simp only [Option.getD_some]
          unfold pyOr
          split
          · exact ⟨_, rfl⟩
          · exact ⟨"", rfl⟩
    obtain ⟨s2, hs2⟩ := hlow
    unfold findAccepted
    rw [pyGet_dict, ok_bind, hs2, ok_bind]
    by_cases hacc : s2 = "accepted"
    · rw [if_pos hacc, pyGet_dict, ok_bind]
      exact ⟨_, rfl⟩
    · rw [if_neg hacc]
      exact findAccepted_ok rest
        (fun y hy => hx y (List.mem_cons_of_mem (Val.dict kv) hy))

/-- Helper: the language comprehension succeeds on a list of dicts. -/
theorem langNames_ok : ∀ (xs : List Val), (∀ x ∈ xs, ∃ kv, x = Val.dict kv) →
    ∃ r, langNames xs = Except.ok r
  | [], _ => ⟨[], rfl⟩
  | x :: rest, hx => by
    obtain ⟨kv, rfl⟩ := hx x (List.mem_cons_self x rest)
    obtain ⟨r2, hr2⟩ := langNames_ok rest
      (fun y hy => hx y (List.mem_cons_of_mem (Val.dict kv) hy))
    unfold langNames
    rw [pyGet_dict, ok_bind, hr2, ok_bind]
    split
    · exact ⟨_, rfl⟩
    · exact ⟨_, rfl⟩

/-- The shape assumptions of the amended totality claim: every field the
source reads *without* a guard has its documented container type; all
other values are arbitrary.  Concretely: `original_repos`,
`authored_forks` and `overall_last_commit` are absent, null or dicts;
`recentSubmissions` is absent, null or a list of dicts whose present
`statusDisplay` values are null or strings; `matchedUser` is absent or a
dict whose present `languageProblemCount` is a list of dicts; a truthy
supplementary calendar payload is a dict. -/
structure WellShapedPayloads (g lp ll : List (String × Val))
    (lc_calendar : Option Val) : Prop where
  orig : ∀ v, assocFind g "original_repos" = some v →
    v = Val.null ∨ ∃ kvs, v = Val.dict kvs
  forks : ∀ v, assocFind g "authored_forks" = some v →
    v = Val.null ∨ ∃ kvs, v = Val.dict kvs
  overall : ∀ v, assocFind g "overall_last_commit" = some v →
    v = Val.null ∨ ∃ kvs, v = Val.dict kvs
  recent : ∀ v, assocFind lp "recentSubmissions" = some v → v = Val.null ∨
    ∃ xs, v = Val.list xs ∧ ∀ x ∈ xs, ∃ kv, x = Val.dict kv ∧
      (∀ w, assocFind kv "statusDisplay" = some w →
        w = Val.null ∨ ∃ s2, w = Val.str s2)
  langs : ∀ v, assocFind ll "matchedUser" = some v → ∃ kvs, v = Val.dict kvs ∧
    (∀ w, assocFind kvs "languageProblemCount" = some w →
      ∃ xs, w = Val.list xs ∧ ∀ x ∈ xs, ∃ kv2, x = Val.dict kv2)
  calendar : ∀ v, lc_calendar = some v → pyTruthy v = true →
    ∃ kvs, v = Val.dict kvs

/-- C3 (amended): `compute_stats` returns a metrics record without raising
whenever the handful of fields it reads without guards have their
documented container types (`WellShapedPayloads`); every guarded
extraction already degrades to null internally.  (The original claim —
totality for arbitrary loosely-typed values — fails; see the
counterexample.) -/
theorem c3_amended (today : Int) (g lp ll lb : List (String × Val))
    (git_contri lc_calendar : Option Val)
    (hws : WellShapedPayloads g lp ll lc_calendar) :
    ∃ r : StatsRec,
      computeStats today (Val.dict g) (Val.dict lp) (Val.dict ll) (Val.dict lb)
        git_contri lc_calendar = Except.ok r := by
  obtain ⟨n1, hn1⟩ := pyLen_or_dict ((assocFind g "original_repos").getD Val.null)
    (by
      cases hf : assocFind g "original_repos" with
      | none => exact Or.inl rfl
      | some v => simpa using hws.orig v hf)
  obtain ⟨n2, hn2⟩ := pyLen_or_dict ((assocFind g "authored_forks").getD Val.null)
    (by
      cases hf : assocFind g "authored_forks" with
      | none => exact Or.inl rfl
      | some v => simpa using hws.forks v hf)
  obtain ⟨w3, hw3⟩ := pyGet_or_dict ((assocFind g "overall_last_commit").getD Val.null)
    "date"
    (by
      cases hf : assocFind g "overall_last_commit" with
      | none => exact Or.inl rfl
      | some v => simpa using hws.overall v hf)
  obtain ⟨xs2, hxs2, hxs2shape⟩ :
      ∃ xs2, pyOr ((assocFind lp "recentSubmissions").getD Val.null)
        (Val.list []) = Val.list xs2 ∧
        ∀ x ∈ xs2, ∃ kv, x = Val.dict kv ∧
          (∀ w, assocFind kv "statusDisplay" = some w →
            w = Val.null ∨ ∃ s2, w = Val.str s2) := by
    cases hf : assocFind lp "recentSubmissions" with
    | none => exact ⟨[], rfl, by simp⟩
    | some v =>
      rcases hws.recent v hf with rfl | ⟨xs, rfl, hxs⟩
      · exact ⟨[], rfl, by simp⟩
      · simp only [Option.getD_some]
        unfold pyOr
        split
        · exact ⟨xs, rfl, hxs⟩
        · exact ⟨[], rfl, by simp⟩
  obtain ⟨kvmu, hmu, hmuin⟩ :
      ∃ kvmu, (assocFind ll "matchedUser").getD (Val.dict []) = Val.dict kvmu ∧
        (∀ w, assocFind kvmu "languageProblemCount" = some w →
          ∃ xs, w = Val.list xs ∧ ∀ x ∈ xs, ∃ kv2, x = Val.dict kv2) := by
    cases hf : assocFind ll "matchedUser" with
    | none => exact ⟨[], rfl, by simp [assocFind]⟩
    | some v =>
      obtain ⟨kvmu, rfl, hin⟩ := hws.langs v hf
      exact ⟨kvmu, rfl, hin⟩
  obtain ⟨xsl, hxsl, hxslshape⟩ :
      ∃ xsl, (assocFind kvmu "languageProblemCount").getD (Val.list []) = Val.list xsl ∧
        ∀ x ∈ xsl, ∃ kv2, x = Val.dict kv2 := by
    cases hf : assocFind kvmu "languageProblemCount" with
    | none => exact ⟨[], rfl, by simp⟩
    | some w =>
      obtain ⟨xs, rfl, hxs⟩ := hmuin w hf
      exact ⟨xs, rfl, hxs⟩
  obtain ⟨langs, hlang⟩ := langNames_ok xsl hxslshape
  unfold computeStats
  simp only [pyGet_dict, pyGetD_dict, ok_bind]
  rw [hn1, hn2, hw3]
  simp only [ok_bind]
  rw [hxs2, hmu]
  simp only [pyGetD_dict, ok_bind]
  rw [hxsl]
  rcases xs2 with _ | ⟨x0, xrest⟩
  · rw [if_neg (by decide : ¬ pyTruthy (Val.list []) = true)]
    simp only [ok_bind, pyIterate, hlang]
    cases hcal : lc_calendar with
    | none =>
      exact ⟨_, rfl⟩
    | some cal =>
      by_cases htru : pyTruthy cal = true
      · obtain ⟨kcal, rfl⟩ := hws.calendar cal hcal htru
        dsimp only
        rw [if_pos htru]
        simp only [pyGet_dict, ok_bind]
        cases hsc : (assocFind kcal "submissionCalendar").getD Val.null with
        | str s2 =>
          cases hjl : jsonLoadsFlat s2 with
          | ok parsed =>
            simp only [hjl]
            exact ⟨_, rfl⟩
          | error e =>
            simp only [hjl]
            exact ⟨_, rfl⟩
        | null => exact ⟨_, rfl⟩
        | int n => exact ⟨_, rfl⟩
        | list xs => exact ⟨_, rfl⟩
        | dict kvs => exact ⟨_, rfl⟩
      · dsimp only
        rw [if_neg htru]
        exact ⟨_, rfl⟩
  · obtain ⟨kv0, rfl, _⟩ := hxs2shape x0 (List.mem_cons_self x0 xrest)
    obtain ⟨la, hla⟩ := findAccepted_ok (Val.dict kv0 :: xrest) hxs2shape
    rw [if_pos ((by exact rfl) : pyTruthy (Val.list (Val.dict kv0 :: xrest)) = true)]
    simp only [pyIndexZero, pyGet_dict, pyIterate, ok_bind, hla]
    simp only [ok_bind, hlang]
    cases hcal : lc_calendar with
    | none =>
      exact ⟨_, rfl⟩
    | some cal =>
      by_cases htru : pyTruthy cal = true
      · obtain ⟨kcal, rfl⟩ := hws.calendar cal hcal htru
        dsimp only
        rw [if_pos htru]
        simp only [pyGet_dict, ok_bind]
        cases hsc : (assocFind kcal "submissionCalendar").getD Val.null with
        | str s2 =>
          cases hjl : jsonLoadsFlat s2 with
          | ok parsed =>
            simp only [hjl]
            exact ⟨_, rfl⟩
          | error e =>
            simp only [hjl]
            exact ⟨_, rfl⟩
        | null => exact ⟨_, rfl⟩
        | int n => exact ⟨_, rfl⟩
        | list xs => exact ⟨_, rfl⟩
        | dict kvs => exact ⟨_, rfl⟩
      · dsimp only
        rw [if_neg htru]
        exact ⟨_, rfl⟩

/-- A well-shaped version-control payload with a commit date and an
original-repositories map. -/
def c3PayloadG : List (String × Val) :=
  [("overall_last_commit", Val.dict [("date", Val.str "1700000000")]),
   ("original_repos", Val.dict [("r1", Val.null)])]

/-- A well-shaped practice-site profile with one accepted recent
submission. -/
def c3PayloadLP : List (String × Val) :=
  [("recentSubmissions", Val.list
    [Val.dict [("statusDisplay", Val.str "Accepted"),
               ("timestamp", Val.int 1700000000)]])]

/-- A well-shaped language-stats payload. -/
def c3PayloadLL : List (String × Val) :=
  [("matchedUser", Val.dict [("languageProblemCount", Val.list
    [Val.dict [("languageName", Val.str "Python")]])])]

/-- C3 (witness): the amended totality theorem applied to concrete
well-shaped payloads exercising the commit-date, recent-submission and
language paths. -/
theorem c3_amended_witness :
    WellShapedPayloads c3PayloadG c3PayloadLP c3PayloadLL Option.none ∧
    ∃ r : StatsRec,
      computeStats 0 (Val.dict c3PayloadG) (Val.dict c3PayloadLP)
        (Val.dict c3PayloadLL) (Val.dict [("badgesCount", Val.int 3)])
        Option.none Option.none = Except.ok r := by
  have hshape : WellShapedPayloads c3PayloadG c3PayloadLP c3PayloadLL Option.none := by
    constructor
    · intro v hv
      rw [show assocFind c3PayloadG "original_repos" =
          some (Val.dict [("r1", Val.null)]) from rfl] at hv
      obtain rfl := Option.some.inj hv
      exact Or.inr ⟨_, rfl⟩
    · intro v hv
      rw [show assocFind c3PayloadG "authored_forks" = Option.none from rfl] at hv
      exact Option.noConfusion hv
    · intro v hv
      rw [show assocFind c3PayloadG "overall_last_commit" =
          some (Val.dict [("date", Val.str "1700000000")]) from rfl] at hv
      obtain rfl := Option.some.inj hv
      exact Or.inr ⟨_, rfl⟩
    · intro v hv
      rw [show assocFind c3PayloadLP "recentSubmissions" =
          some (Val.list [Val.dict [("statusDisplay", Val.str "Accepted"),
            ("timestamp", Val.int 1700000000)]]) from rfl] at hv
      obtain rfl := Option.some.inj hv
      refine Or.inr ⟨_, rfl, ?_⟩
      intro x hx
      obtain rfl : x = Val.dict [("statusDisplay", Val.str "Accepted"),
          ("timestamp", Val.int 1700000000)] := by simpa using hx
      refine ⟨_, rfl, ?_⟩
      intro w hw
      rw [show assocFind [("statusDisplay", Val.str "Accepted"),
          ("timestamp", Val.int 1700000000)] "statusDisplay" =
          some (Val.str "Accepted") from rfl] at hw
      obtain rfl := Option.some.inj hw
      exact Or.inr ⟨_, rfl⟩
    · intro v hv
      rw [show assocFind c3PayloadLL "matchedUser" =
          some (Val.dict [("languageProblemCount", Val.list
            [Val.dict [("languageName", Val.str "Python")]])]) from rfl] at hv
      obtain rfl := Option.some.inj hv
      refine ⟨_, rfl, ?_⟩
      intro w hw
      rw [show assocFind [("languageProblemCount", Val.list
          [Val.dict [("languageName", Val.str "Python")]])] "languageProblemCount" =
          some (Val.list [Val.dict [("languageName", Val.str "Python")]]) from rfl] at hw
      obtain rfl := Option.some.inj hw
      refine ⟨_, rfl, ?_⟩
      intro x hx
      obtain rfl : x = Val.dict [("languageName", Val.str "Python")] := by simpa using hx
      exact ⟨_, rfl⟩
    · intro v hv
      exact Option.noConfusion hv
  exact ⟨hshape,
    c3_amended 0 c3PayloadG c3PayloadLP c3PayloadLL [("badgesCount", Val.int 3)]
      Option.none Option.none hshape⟩

end Tracker
